import Mathlib

/-!
Verification of the delegated LLM interaction broker of the task-master MCP
server against its specification.  The definitions below are a shallow
embedding of the JavaScript sources:

* src/mcp-server/src/index.js                     (the Tool Wrapper, `_getWrappedToolExecutor`)
* the agent_llm tool (registerAgentLLMTool)       (the Broker Tool)
* the expand-task tool delegation-signal handling
* src/mcp-server/src/core/utils/update-task-saver.js      (saveUpdatedTaskFromAgent)
* src/mcp-server/src/core/utils/update-subtask-saver.js   (saveSubtaskDetailsFromAgent, saveNewTaskFromAgent)
* the bulk saver (saveMultipleTasksFromAgent)
* the expand saver (saveExpandedTaskData)
* the research result handler (handleAgentResearchResult, saveResearchToFile)
* src/mcp-server/src/core/utils/agent-task-saver.js       (saveTasksFromAgentData)

JavaScript dynamic values are modelled with explicit Option fields (an absent
property is none), JS object spread / Object.assign becomes field-wise
defaulting, the in-memory Map of pending interactions becomes an association
list, and JSON.parse of the delegation-signal resource text is modelled by an
Option-valued payload field (none = text that is not a string or does not
parse).  Promise resolution is modelled by emitting explicit resolver actions.
-/

/-- Truthiness of an optional JS string: present and nonempty. -/
def strTruthy : Option String → Bool
  | some s => s != ""
  | none => false

/-- JS a || b on optional strings (empty string is falsy). -/
def jsOrStr (a b : Option String) : Option String :=
  if strTruthy a then a else b

/-- JS String.prototype.trim, modelled on the character list (the built-in
byte-position trim does not reduce in the kernel). -/
def jsTrim (s : String) : String :=
  String.mk (((s.data.dropWhile Char.isWhitespace).reverse.dropWhile
    Char.isWhitespace).reverse)

/-- Tag information carried in requestParameters.tagInfo. -/
structure TagInfo where
  currentTag : String
  availableTags : List String
deriving Repr, DecidableEq

/-- Parameters of the delegated LLM call; only the fields the wrapper and the
savers inspect are modelled, the rest of the payload is opaque to them. -/
structure RequestParameters where
  tagInfo : Option TagInfo
  nextSubtaskId : Option Nat
  numSubtasksForAgent : Option Nat
  newTaskId : Option Nat
  userDependencies : List Nat
  userPriority : Option String
deriving Repr, DecidableEq

/-- A RequestParameters value with every optional field absent. -/
def emptyRequestParameters : RequestParameters :=
  ⟨none, none, none, none, [], none⟩

/-- The delegatedCallDetails object of a pending interaction. -/
structure DelegatedCallDetails where
  originalCommand : String
  role : String
  serviceType : String
  requestParameters : RequestParameters
deriving Repr, DecidableEq

/-- The pendingInteraction object produced by a delegating command core. -/
structure PendingInteraction where
  type : String
  interactionId : Option String
  delegatedCallDetails : Option DelegatedCallDetails
deriving Repr, DecidableEq

/-- Parsed content of the delegation-signal resource text
JSON.parse(resource.text). -/
structure ResourcePayload where
  isAgentLLMPendingInteraction : Bool
  details : Option PendingInteraction
deriving Repr, DecidableEq

/-- An embedded resource of a tool result.  The text field models
JSON.parse of the textual body: none stands for a body that is not a string
or fails to parse. -/
structure EmbeddedResource where
  uri : String
  mimeType : String
  text : Option ResourcePayload
deriving Repr, DecidableEq

/-- One entry of a tool result content array. -/
structure ContentItem where
  type : String
  resource : Option EmbeddedResource
deriving Repr, DecidableEq

/-- The value a wrapped tool returns.  The fields cover both delegation-signal
shapes (the plain needsAgentDelegation object and the embedded-resource
envelope) and the Broker Tool completion envelope the wrapper inspects. -/
structure ToolResult where
  content : List ContentItem
  needsAgentDelegation : Bool
  pendingInteraction : Option PendingInteraction
  interactionId : Option String
  finalLLMOutput : Option String
  error : Option String
  status : Option String
  isError : Bool
deriving Repr, DecidableEq

/-- A ToolResult with every field absent. -/
def emptyToolResult : ToolResult :=
  ⟨[], false, none, none, none, none, none, false⟩

/-! The Broker Tool (agent_llm), from registerAgentLLMTool. -/

/-- The agentLLMResponse parameter of the Broker Tool (Agent-to-Host form). -/
structure AgentLLMResponse where
  status : String
  data : Option String
  errorDetails : Option String
deriving Repr, DecidableEq

/-- The validated parameters of the Broker Tool. -/
structure AgentLLMArgs where
  interactionId : Option String
  delegatedCallDetails : Option DelegatedCallDetails
  agentLLMResponse : Option AgentLLMResponse
  projectRoot : String
deriving Repr, DecidableEq

/-- The result of one Broker Tool execution: the Host-to-Agent directive, the
Agent-to-Host completion forwarding, or a structured error response
(createErrorResponse). -/
inductive BrokerResult where
  | directive (interactionId : String) (llmRequestForAgent : RequestParameters)
  | completion (status : String) (finalLLMOutput : Option String)
      (err : Option String) (interactionId : String)
  | errorResponse (msg : String)
deriving Repr, DecidableEq

/-- Execute of the agent_llm tool.  freshId models the uuidv4() generated when
the Host-to-Agent form arrives without an interactionId.  Mirrors the
delegatedCallDetails branch, the agentLLMResponse branch with its missing-id
check, and the final invalid-parameters branch, in source order. -/
def agentLLMExecute (freshId : String) (args : AgentLLMArgs) : BrokerResult :=
  match args.delegatedCallDetails with
  | some dcd =>
    let effectiveInteractionId := (jsOrStr args.interactionId (some freshId)).getD freshId
    .directive effectiveInteractionId dcd.requestParameters
  | none =>
    match args.agentLLMResponse with
    | some r =>
      if !(strTruthy args.interactionId) then
        .errorResponse "agent_llm: Agent response is missing interactionId."
      else
        .completion
          (if r.status = "success" then "llm_response_completed" else "llm_response_error")
          r.data r.errorDetails (args.interactionId.getD "")
    | none =>
      .errorResponse "Invalid parameters for agent_llm tool: Must provide either delegatedCallDetails or agentLLMResponse."

/-! Research save-to-file: filename slug pipeline of saveResearchToFile. -/

/-- Characters the slug keeps before hyphenation: the regex replace of
[^a-z0-9 whitespace hyphen] with the empty string keeps exactly these. -/
def allowedSlugChar (c : Char) : Bool :=
  (decide ('a' ≤ c) && decide (c ≤ 'z')) ||
  (decide ('0' ≤ c) && decide (c ≤ '9')) ||
  c.isWhitespace || c == '-'

/-- Replace every maximal run of characters satisfying p with the single
character out; the flag records whether the previous character was inside a
run.  With the flag false this models the global regex replace of one-or-more
repetitions of p by out. -/
def squashRuns (p : Char → Bool) (out : Char) : List Char → Bool → List Char
  | [], _ => []
  | c :: rest, inRun =>
    if p c then
      (if inRun then squashRuns p out rest true else out :: squashRuns p out rest true)
    else
      c :: squashRuns p out rest false

/-- Remove every trailing hyphen (the -+$ part of the edge-strip regex). -/
def dropTrailingHyphens : List Char → List Char
  | [] => []
  | c :: rest =>
    match dropTrailingHyphens rest with
    | [] => if c == '-' then [] else [c]
    | r => c :: r

/-- Slugification of the research query, mirroring the chained string
operations of saveResearchToFile: toLowerCase, remove disallowed characters,
whitespace runs to single hyphens, hyphen runs to single hyphens, truncate to
50, strip edge hyphens. -/
def slugify (q : String) : String :=
  let l1 := q.toLower.data.filter allowedSlugChar
  let l2 := squashRuns Char.isWhitespace '-' l1 false
  let l3 := squashRuns (fun c => c == '-') '-' l2 false
  let l4 := l3.take 50
  let l5 := l4.dropWhile (fun c => c == '-')
  String.mk (dropTrailingHyphens l5)

/-- The two renderings of the run date used by saveResearchToFile: the
YYYY-MM-DD prefix of toISOString and the toLocaleDateString text. -/
structure DateRender where
  iso : String
  locale : String
deriving Repr, DecidableEq

/-- Pure core of saveResearchToFile: the generated (filename, file content)
pair as a function of the research text, the query and the run date. -/
def saveResearchToFile (researchText query : String) (d : DateRender) : String × String :=
  (d.iso ++ "_" ++ slugify query ++ ".md",
   "# Research Query: " ++ query ++ "\n\n## Date: " ++ d.locale ++ "\n\n" ++ researchText)

/-! TmTask store model shared by the savers. -/

/-- A subtask record as stored in tasks.json. -/
structure Subtask where
  id : Nat
  title : String
  description : String
  details : String
  status : String
  testStrategy : String
  dependencies : List Nat
deriving Repr, DecidableEq

/-- A task record as stored in tasks.json. -/
structure TmTask where
  id : Nat
  title : String
  description : String
  details : String
  status : String
  testStrategy : String
  priority : String
  dependencies : List Nat
  subtasks : List Subtask
deriving Repr, DecidableEq

/-- A task-shaped object received from the agent; every field is optional
because the agent payload is free-form JSON (an absent property is none). -/
structure AgentTaskPayload where
  id : Option Nat
  title : Option String
  description : Option String
  details : Option String
  status : Option String
  testStrategy : Option String
  priority : Option String
  dependencies : Option (List Nat)
  subtasks : Option (List Subtask)
deriving Repr, DecidableEq

/-- An AgentTaskPayload with every property absent. -/
def emptyAgentTaskPayload : AgentTaskPayload :=
  ⟨none, none, none, none, none, none, none, none, none⟩

/-- JS spread merge of an agent payload over an existing task with the id and
the subtasks fields forced afterwards, as in
Object.assign(task, { ...parsedAgentTask, id, subtasks }). -/
def mergeTaskPayload (orig : TmTask) (p : AgentTaskPayload)
    (forcedId : Nat) (forcedSubs : List Subtask) : TmTask :=
  { id := forcedId
    title := p.title.getD orig.title
    description := p.description.getD orig.description
    details := p.details.getD orig.details
    status := p.status.getD orig.status
    testStrategy := p.testStrategy.getD orig.testStrategy
    priority := p.priority.getD orig.priority
    dependencies := p.dependencies.getD orig.dependencies
    subtasks := forcedSubs }

/-- JS spread merge of an agent payload over an existing subtask with the id
forced, as in Object.assign(subtask, { ...parsedAgentTask, id: subId }). -/
def mergeSubtaskPayload (orig : Subtask) (p : AgentTaskPayload)
    (forcedId : Nat) : Subtask :=
  { id := forcedId
    title := p.title.getD orig.title
    description := p.description.getD orig.description
    details := p.details.getD orig.details
    status := p.status.getD orig.status
    testStrategy := p.testStrategy.getD orig.testStrategy
    dependencies := p.dependencies.getD orig.dependencies }

/-- JS status test shared by all savers: done or completed. -/
def isCompletedStatus (s : String) : Bool :=
  s == "done" || s == "completed"

/-- The completed-subtask restore loop of the full-update paths: for every
completed original subtask, if the agent list misses it or altered it
(JSON.stringify comparison), drop every subtask with that id and push the
original back. -/
def restoreStep (acc : List Subtask) (comp : Subtask) : List Subtask :=
  if acc.find? (fun st => st.id == comp.id) == some comp then acc
  else acc.filter (fun st => st.id != comp.id) ++ [comp]

/-- The restore loop folds the step over the completed original subtasks,
starting from the agent list. -/
def restoreCompleted (completedOrig agentSubs : List Subtask) : List Subtask :=
  completedOrig.foldl restoreStep agentSubs

/-- Keep only the first subtask with each id, in order (the Set-based
deduplication filter of the savers). -/
def dedupeGo (seen : List Nat) : List Subtask → List Subtask
  | [] => []
  | st :: rest =>
    if st.id ∈ seen then dedupeGo seen rest
    else st :: dedupeGo (st.id :: seen) rest

/-- Deduplication starts with an empty seen set. -/
def dedupeById (l : List Subtask) : List Subtask :=
  dedupeGo [] l

/-- Stable sort by ascending id (the JS sort((a, b) => a.id - b.id)). -/
def sortById (l : List Subtask) : List Subtask :=
  l.insertionSort (fun a b => a.id ≤ b.id)

/-- The full subtask-merge of the single-task and bulk savers: take the
agent subtasks (or [] when absent), restore completed originals, deduplicate
by id, sort by id.  The restore/dedupe/sort steps run only when the original
task has at least one subtask, exactly as in the source. -/
def mergeSubtaskLists (origSubs : List Subtask) (agentSubs : Option (List Subtask)) : List Subtask :=
  let base := agentSubs.getD []
  if origSubs.length > 0 then
    sortById (dedupeById (restoreCompleted (origSubs.filter (fun st => isCompletedStatus st.status)) base))
  else
    base

/-! saveUpdatedTaskFromAgent (update-task-saver.js). -/

/-- The task/subtask reference given to the single-task saver: the JS
taskIdToUpdate string after the includes-dot / parseInt split. -/
inductive TaskRef where
  | top (id : Nat)
  | sub (parentId subId : Nat)
deriving Repr, DecidableEq

/-- Agent output as the single-task saver receives it: a plain string or an
already structured task object. -/
inductive AgentOutput where
  | str (s : String)
  | obj (p : AgentTaskPayload)
deriving Repr, DecidableEq

/-- Arguments of the original update_task / update_subtask tool call that the
savers consult. -/
structure OriginalToolArgs where
  projectRoot : Option String
  id : Option String
  append : Bool
  prompt : Option String
deriving Repr, DecidableEq

/-- Outcome record of a saver run. -/
structure SaveOutcome where
  success : Bool
  wasActuallyUpdated : Bool
  errorMsg : Option String
deriving Repr, DecidableEq

/-- Find the referenced task or subtask in the store, mirroring the lookup at
the top of saveUpdatedTaskFromAgent (find parent, then find subtask). -/
def findTargetItem (tasks : List TmTask) : TaskRef → Option (TmTask × Option Subtask)
  | .top id =>
    match tasks.find? (fun t => t.id == id) with
    | some t => some (t, none)
    | none => none
  | .sub p s =>
    match tasks.find? (fun t => t.id == p) with
    | some t =>
      match t.subtasks.find? (fun st => st.id == s) with
      | some st => some (t, some st)
      | none => none
    | none => none

/-- Status of the referenced item (the subtask when the reference is dotted,
the task itself otherwise). -/
def targetStatus (tasks : List TmTask) (ref : TaskRef) : Option String :=
  match findTargetItem tasks ref with
  | some (_, some st) => some st.status
  | some (t, none) => some t.status
  | none => none

/-- Replace the first element satisfying p using f (the in-place mutation of
the object found by Array.prototype.find). -/
def updateFirstBy (p : α → Bool) (f : α → α) : List α → List α
  | [] => []
  | x :: xs => if p x then f x :: xs else x :: updateFirstBy p f xs

/-- Replace the first task with the given id using f. -/
def updateFirstTask (tasks : List TmTask) (id : Nat) (f : TmTask → TmTask) : List TmTask :=
  updateFirstBy (fun t => t.id == id) f tasks

/-- Replace the first subtask with the given id using f. -/
def updateFirstSubtask (subs : List Subtask) (id : Nat) (f : Subtask → Subtask) : List Subtask :=
  updateFirstBy (fun st => st.id == id) f subs

/-- The timestamped append block of the append-mode path. -/
def appendBlock (ts body : String) : String :=
  "<info added on " ++ ts ++ ">\n" ++ jsTrim body ++ "\n</info added on " ++ ts ++ ">"

/-- Append with the original details and a blank line when details exist
(details ? details + two-newlines : empty, plus the block). -/
def appendedDetails (origDetails block : String) : String :=
  (if origDetails != "" then origDetails ++ "\n\n" else "") ++ block

/-- Stable sort of tasks by ascending id (the JS sort after push in
saveNewTaskFromAgent). -/
def sortTasksById (l : List TmTask) : List TmTask :=
  l.insertionSort (fun a b => a.id ≤ b.id)

/-- The single-task saver saveUpdatedTaskFromAgent as a pure transformer of
the tasks array.  parser stands for parseUpdatedTaskFromText (imported from
scripts/modules/task-manager/update-task-by-id.js, not part of src/); every
theorem below holds for an arbitrary parser.  ts is the ISO timestamp taken
during the run.  Returns the tasks array as left on disk together with the
outcome record. -/
def saveUpdatedTaskFromAgent (parser : String → Option AgentTaskPayload)
    (agentOutput : AgentOutput) (ref : TaskRef) (args : OriginalToolArgs)
    (ts : String) (tasks : List TmTask) : List TmTask × SaveOutcome :=
  match findTargetItem tasks ref with
  | none => (tasks, ⟨false, false, some "Task/subtask not found for update."⟩)
  | some (_t, subOpt) =>
    let targetSt : String := match subOpt with
      | some st => st.status
      | none => _t.status
    match agentOutput, args.append with
    | .str s, true =>
      -- append mode with a string payload
      if isCompletedStatus targetSt then
        (tasks, ⟨true, false, none⟩)
      else
        let block := appendBlock ts s
        let g : Subtask → Subtask := fun st => { st with details := appendedDetails st.details block }
        let tasks' := match ref with
          | .top id =>
            updateFirstTask tasks id (fun t => { t with details := appendedDetails t.details block })
          | .sub p q =>
            updateFirstTask tasks p (fun t => { t with subtasks := updateFirstSubtask t.subtasks q g })
        (tasks', ⟨true, true, none⟩)
    | out, _ =>
      -- full-update path: obtain the parsed agent task
      let parsedAgentTask : Option AgentTaskPayload := match out with
        | .str s => parser s
        | .obj p => some p
      match parsedAgentTask with
      | none => (tasks, ⟨false, false, some "Task data from agent is invalid for full update after parsing/processing."⟩)
      | some p =>
        if isCompletedStatus targetSt then
          (tasks, ⟨true, false, none⟩)
        else
          match ref with
          | .sub parentId subId =>
            let g : Subtask → Subtask := fun st => mergeSubtaskPayload st p subId
            let tasks' := updateFirstTask tasks parentId
              (fun t => { t with subtasks := updateFirstSubtask t.subtasks subId g })
            (tasks', ⟨true, true, none⟩)
          | .top id =>
            let tasks' := updateFirstTask tasks id
              (fun t => mergeTaskPayload t p id (mergeSubtaskLists t.subtasks p.subtasks))
            (tasks', ⟨true, true, none⟩)

/-- Append with trim, as the subtask saver builds it
(details ? details.trim() + two-newlines : empty, plus the block). -/
def appendedDetailsTrim (origDetails block : String) : String :=
  (if origDetails != "" then jsTrim origDetails ++ "\n\n" else "") ++ block

/-- The subtask saver saveSubtaskDetailsFromAgent as a pure transformer.
agentOutput is none when the payload is not a string.  ts is the ISO
timestamp, localeDate the toLocaleDateString text used for the description
marker. -/
def saveSubtaskDetailsFromAgent (agentOutput : Option String)
    (parentId subId : Nat) (args : OriginalToolArgs)
    (ts localeDate : String) (tasks : List TmTask) : List TmTask × SaveOutcome :=
  match agentOutput with
  | none => (tasks, ⟨false, false, some "Invalid agentOutputString format. Expected a plain text string."⟩)
  | some s =>
    if jsTrim s == "" then
      (tasks, ⟨true, false, none⟩)
    else
      match tasks.find? (fun t => t.id == parentId) with
      | none => (tasks, ⟨false, false, some "Parent task not found."⟩)
      | some parent =>
        match parent.subtasks.find? (fun st => st.id == subId) with
        | none => (tasks, ⟨false, false, some "Subtask not found within parent task."⟩)
        | some st =>
          if isCompletedStatus st.status then
            (tasks, ⟨true, false, none⟩)
          else
            let block := appendBlock ts s
            let markDescription : String → String := fun d =>
              if d != "" && (args.prompt.getD "").length < 100 then
                d ++ " [Updated: " ++ localeDate ++ "]"
              else d
            let g : Subtask → Subtask := fun st0 =>
              { st0 with
                  details := appendedDetailsTrim st0.details block
                  description := markDescription st0.description }
            let tasks' := updateFirstTask tasks parentId
              (fun t => { t with subtasks := updateFirstSubtask t.subtasks subId g })
            (tasks', ⟨true, true, none⟩)

/-- The add-task saver saveNewTaskFromAgent.  agentTaskData is none when the
payload is not an object; storeValid is false when tasks.json was missing or
invalid (the saver then starts from an empty array).  Returns the written
tasks array (none = nothing written) and the outcome. -/
def saveNewTaskFromAgent (agentTaskData : Option AgentTaskPayload)
    (args : OriginalToolArgs) (delegatedRequestParams : Option RequestParameters)
    (storeValid : Bool) (tasks : List TmTask) : Option (List TmTask) × SaveOutcome :=
  match agentTaskData with
  | none => (none, ⟨false, false, some "Invalid agentTaskData structure. Expected an object."⟩)
  | some p =>
    match delegatedRequestParams with
    | none => (none, ⟨false, false, some "Missing or invalid newTaskId in delegatedRequestParams."⟩)
    | some params =>
      match params.newTaskId with
      | none => (none, ⟨false, false, some "Missing or invalid newTaskId in delegatedRequestParams."⟩)
      | some newTaskId =>
        let userPriority := (jsOrStr params.userPriority (some "medium")).getD "medium"
        let newTask : TmTask :=
          { id := newTaskId
            title := (jsOrStr p.title (jsOrStr args.prompt (some "Untitled Task from Agent"))).getD ""
            description := (jsOrStr p.description (jsOrStr args.prompt (some ""))).getD ""
            details := (jsOrStr p.details (some "")).getD ""
            testStrategy := (jsOrStr p.testStrategy (some "")).getD ""
            status := "pending"
            dependencies := p.dependencies.getD params.userDependencies
            priority := userPriority
            subtasks := [] }
        let base := if storeValid then tasks else []
        if base.any (fun t => t.id == newTask.id) then
          (none, ⟨false, false, some "Task ID already exists. Cannot add task."⟩)
        else
          (some (sortTasksById (base ++ [newTask])), ⟨true, true, none⟩)

/-- Agent output as the bulk saver receives it. -/
inductive BulkAgentOutput where
  | str (s : String)
  | arr (ps : List AgentTaskPayload)
  | other
deriving Repr, DecidableEq

/-- Last payload in the list carrying the given id (the JS Map built with
new Map(array.map(t => [t.id, t])) keeps the last entry per key). -/
def lookupLastPayload (ps : List AgentTaskPayload) (id : Nat) : Option AgentTaskPayload :=
  (ps.filter (fun p => p.id == some id)).getLast?

/-- The bulk saver saveMultipleTasksFromAgent as a pure transformer.  parser
stands for parseUpdatedTasksFromText (imported from
scripts/modules/task-manager/update-tasks.js, not part of src/); every theorem
below holds for an arbitrary parser. -/
def saveMultipleTasksFromAgent (parser : String → Option (List AgentTaskPayload))
    (out : BulkAgentOutput) (tasks : List TmTask) : List TmTask × SaveOutcome :=
  let parsed : Option (List AgentTaskPayload) := match out with
    | .str s => parser s
    | .arr ps =>
      if ps.all (fun p => p.id.isSome && p.title.isSome) then some ps else none
    | .other => none
  match parsed with
  | none => (tasks, ⟨false, false, some "Invalid agentOutput format."⟩)
  | some ps =>
    let tasks' := tasks.map (fun origTask =>
      match lookupLastPayload ps origTask.id with
      | none => origTask
      | some agentTask =>
        if isCompletedStatus origTask.status then origTask
        else
          mergeTaskPayload origTask agentTask origTask.id
            (mergeSubtaskLists origTask.subtasks agentTask.subtasks))
    (tasks', ⟨true, true, none⟩)

/-- Agent output as the expand saver receives it.  The str form carries the
list of subtask objects the JSON text denotes, which the parser consumes. -/
inductive ExpandAgentOutput where
  | str (raw : List Subtask)
  | arr (subs : List Subtask)
  | objWithSubtasks (subs : List Subtask)
  | other
deriving Repr, DecidableEq

/-- Modelled from the spec: parseSubtasksFromText lives in
scripts/modules/task-manager/expand-task.js, which is not part of src/.  The
spec (section 8, scenario 3) has the post-processor number the parsed
subtasks sequentially from the directive hint nextSubtaskId, so the modelled
parser assigns ids startId, startId+1, ... to the parsed subtask objects. -/
def parseSubtasksFromText (raw : List Subtask) (startId : Nat) : List Subtask :=
  raw.enum.map (fun pr => { pr.2 with id := startId + pr.1 })

/-- The expand saver saveExpandedTaskData as a pure transformer.
nextSubtaskId and numSubtasks are the directive hints recovered by the
wrapper (originalTaskDetailsForSaver). -/
def saveExpandedTaskData (out : ExpandAgentOutput) (parentTaskIdNum : Nat)
    (nextSubtaskId numSubtasks : Nat) (tasks : List TmTask) : List TmTask × SaveOutcome :=
  let _ := numSubtasks
  match tasks.findIdx? (fun t => t.id == parentTaskIdNum) with
  | none => (tasks, ⟨false, false, some "Parent task not found."⟩)
  | some _ =>
    let subtasksToSave : Option (List Subtask) := match out with
      | .str raw => some (parseSubtasksFromText raw nextSubtaskId)
      | .arr subs => some subs
      | .objWithSubtasks subs => some subs
      | .other => none
    match subtasksToSave with
    | none => (tasks, ⟨false, false, some "Invalid agentOutput format. Expected a JSON string of subtasks, an array of subtasks, or an object with a subtasks array."⟩)
    | some subs =>
      let tasks' := updateFirstTask tasks parentTaskIdNum
        (fun t => { t with subtasks := t.subtasks ++ subs })
      (tasks', ⟨true, true, none⟩)

/-- The parse-prd saver saveTasksFromAgentData: validates the payload shape
and then overwrites tasks.json wholesale with the agent tasks (the previous
store content does not enter the computation at all). -/
def saveTasksFromAgentData (agentTasks : Option (List TmTask))
    (metadataPresent : Bool) (oldStore : List TmTask) : List TmTask × SaveOutcome :=
  match agentTasks with
  | none => (oldStore, ⟨false, false, some "Invalid tasksData structure."⟩)
  | some ts =>
    if metadataPresent then (ts, ⟨true, true, none⟩)
    else (oldStore, ⟨false, false, some "Invalid tasksData structure."⟩)

/-! handleAgentResearchResult (research post-processing), saveTo branch. -/

/-- Per-tag slice of the tagged task store (metadata is not modelled; the
handler only touches the tasks array). -/
structure TagData where
  tasks : List TmTask
deriving Repr, DecidableEq

/-- The tagged on-disk task store, a mapping from tag name to its slice. -/
abbrev TagStore := List (String × TagData)

/-- Lookup of a tag slice. -/
def tagLookup (store : TagStore) (tag : String) : Option TagData :=
  (store.find? (fun p => p.1 == tag)).map (fun p => p.2)

/-- Set a tag slice, replacing the entry of an existing tag in place, or
appending a new one. -/
def setTag (store : TagStore) (tag : String) (d : TagData) : TagStore :=
  match store with
  | [] => [(tag, d)]
  | hd :: tl => if hd.1 == tag then (tag, d) :: tl else hd :: setTag tl tag d

/-- The timestamped research block appended to a task or subtask by
handleAgentResearchResult. -/
def researchContentBlock (ts : String) (query detailLevel : Option String)
    (text : String) : String :=
  "\n\n<info added on " ++ ts ++ ">\n"
  ++ (if strTruthy query then "Original Query: " ++ jsTrim (query.getD "") ++ "\n" else "")
  ++ (if strTruthy detailLevel then "Detail Level: " ++ (detailLevel.getD "") ++ "\n\n" else "")
  ++ jsTrim text ++ "\n</info added on " ++ ts ++ ">"

/-- Modelled from the spec: findTaskById lives in scripts/modules/utils.js,
which is not part of src/.  Per its call sites and the spec's data model
(ordered task sequence per tag) it returns the task with the given numeric id
from the list.  The saveTo branch of handleAgentResearchResult: append the
research block to the target task or subtask and write the store when the
item was found; the store is written only when an item was modified.  Note
the source checks no completion status on this path. -/
def handleAgentResearchSaveTo (agentResearchText : String)
    (query detailLevel : Option String) (saveTo : TaskRef)
    (resolvedTag : String) (ts : String) (store : TagStore) : TagStore × Bool :=
  if jsTrim agentResearchText == "" then (store, false)
  else
    let block := researchContentBlock ts query detailLevel agentResearchText
    let store1 := if (tagLookup store resolvedTag).isSome then store
      else setTag store resolvedTag ⟨[]⟩
    match tagLookup store1 resolvedTag with
    | none => (store, false)
    | some td =>
      match saveTo with
      | .top id =>
        match td.tasks.find? (fun t => t.id == id) with
        | none => (store, false)
        | some _ =>
          let newTasks := updateFirstTask td.tasks id
            (fun t => { t with details := t.details ++ block })
          (setTag store1 resolvedTag ⟨newTasks⟩, true)
      | .sub p s =>
        match td.tasks.find? (fun t => t.id == p) with
        | none => (store, false)
        | some parent =>
          match parent.subtasks.find? (fun st => st.id == s) with
          | none => (store, false)
          | some _ =>
            let g : Subtask → Subtask := fun st => { st with details := st.details ++ block }
            let newTasks := updateFirstTask td.tasks p
              (fun t => { t with subtasks := updateFirstSubtask t.subtasks s g })
            (setTag store1 resolvedTag ⟨newTasks⟩, true)

/-! The Tool Wrapper (_getWrappedToolExecutor of TaskMasterMCPServer). -/

/-- Caller session as the wrapper consults it (the uris of session.roots). -/
structure Session where
  roots : List String
deriving Repr, DecidableEq

/-- Pending Interaction Record stored in pendingAgentLLMInteractions; the
resolve/reject continuations are modelled by the resolver actions the wrapper
emits. -/
structure PendingRecord where
  originalToolName : String
  originalToolArgs : OriginalToolArgs
  session : Session
  timestamp : Nat
  delegatedCallDetails : Option DelegatedCallDetails
deriving Repr, DecidableEq

/-- The interaction registry: the Map from interaction id to Pending Record,
as an insertion-ordered association list. -/
abbrev Registry := List (String × PendingRecord)

/-- Map.get. -/
def regGet : Registry → String → Option PendingRecord
  | [], _ => none
  | hd :: tl, k => if hd.1 == k then some hd.2 else regGet tl k

/-- Map.set: replace the entry of an existing key in place, or append a new
one (JS Map preserves insertion order). -/
def regSet (reg : Registry) (k : String) (v : PendingRecord) : Registry :=
  match reg with
  | [] => [(k, v)]
  | hd :: tl => if hd.1 == k then (k, v) :: tl else hd :: regSet tl k v

/-- Map.delete. -/
def regDel : Registry → String → Registry
  | [], _ => []
  | hd :: tl, k => if hd.1 == k then regDel tl k else hd :: regDel tl k

/-- The result object handed to the stored resolve continuation on the agent
callback path (mainResult, telemetryData: null, recovered tagInfo). -/
structure ResolvedData where
  mainResult : Option String
  telemetryData : Option String
  tagInfo : TagInfo
deriving Repr, DecidableEq

/-- Invocation of the stored resolve or reject continuation. -/
inductive ResolverAction where
  | resolveWith (rd : ResolvedData)
  | rejectWith (msg : String)
deriving Repr, DecidableEq

/-- The background invocation of the Broker Tool with the Host-to-Agent form
that the wrapper schedules after inserting the Pending Record. -/
structure BrokerDispatch where
  interactionId : String
  delegatedCallDetails : Option DelegatedCallDetails
  projectRoot : String
deriving Repr, DecidableEq

/-- The fire-and-forget post-processor invocation the wrapper schedules on a
successful agent callback, keyed on the original tool name. -/
inductive PostProcessCall where
  | parsePrd (projectRoot : String) (output : Option String)
  | expandTask (projectRoot : String) (parentId nextSubtaskId numSubtasks : Nat) (output : Option String)
  | analyzeComplexity (projectRoot : String) (output : Option String)
  | updateTask (projectRoot : String) (taskId : String) (output : Option String)
  | addTask (projectRoot : String) (params : RequestParameters) (output : Option String)
  | updateSubtask (projectRoot : String) (subtaskId : String) (output : Option String)
  | bulkUpdate (projectRoot : String) (output : Option String)
  | research (projectRoot : String) (output : Option String)
deriving Repr, DecidableEq

/-- The value the wrapper hands back to the Tool Channel. -/
inductive WrapperResponse where
  | passThrough (tr : ToolResult)
  | errorResponse (msg : String)
  | ack (interactionId : String)
deriving Repr, DecidableEq

/-- Everything one wrapper invocation produces: the registry afterwards, the
response to the caller, and the scheduled side effects. -/
structure WrapperOutput where
  registry : Registry
  response : WrapperResponse
  resolverAction : Option ResolverAction
  brokerDispatch : Option BrokerDispatch
  postProcess : Option PostProcessCall
deriving Repr, DecidableEq

/-- Delegation-signal detection of the wrapper: the first content item must be
a resource with the sentinel uri whose text parses to the
isAgentLLMPendingInteraction payload; the extracted details object is
returned. -/
def detectSignal (tr : ToolResult) : Option PendingInteraction :=
  match tr.content with
  | [] => none
  | item :: _ =>
    if item.type == "resource" then
      match item.resource with
      | none => none
      | some r =>
        if r.uri == "agent-llm://pending-interaction" then
          match r.text with
          | none => none
          | some payload =>
            if payload.isAgentLLMPendingInteraction then payload.details else none
        else none
    else none

/-- Detection plus the type check of the main conditional
(detectedPendingInteractionObj.type === agent_llm). -/
def signalOf (tr : ToolResult) : Option PendingInteraction :=
  match detectSignal tr with
  | some pi => if pi.type == "agent_llm" then some pi else none
  | none => none

/-- JS parseInt on a string, digits only (none when no leading digits). -/
def jsParseInt (s : String) : Option Nat :=
  let ds := (s.data.dropWhile Char.isWhitespace).takeWhile Char.isDigit
  if ds.isEmpty then none
  else some (ds.foldl (fun acc c => acc * 10 + (c.toNat - 48)) 0)

/-- The post-processor dispatch of the agent-callback path: the else-if chain
keyed on pendingData.originalToolName (with the update-tasks alias on
delegatedCallDetails.originalCommand), each guarded by the availability
checks of its branch.  Returns the scheduled saver call, none when a guard
fails (the warn path). -/
def postProcessFor (pendingData : PendingRecord) (tr : ToolResult) : Option PostProcessCall :=
  let statusOk := tr.status != some "llm_response_error"
  let outTruthy := strTruthy tr.finalLLMOutput
  let name := pendingData.originalToolName
  let rootOpt := jsOrStr pendingData.originalToolArgs.projectRoot pendingData.session.roots.head?
  let reqParams := pendingData.delegatedCallDetails.map (fun d => d.requestParameters)
  if name == "parse_prd" && statusOk && outTruthy then
    match rootOpt with
    | some root => if root != "" then some (.parsePrd root tr.finalLLMOutput) else none
    | none => none
  else if name == "expand_task" && statusOk && outTruthy then
    let parentTaskIdNum := pendingData.originalToolArgs.id.bind jsParseInt
    let nextId := reqParams.bind (fun r => r.nextSubtaskId)
    let numFor := reqParams.bind (fun r => r.numSubtasksForAgent)
    match rootOpt, parentTaskIdNum, nextId, numFor with
    | some root, some parentId, some nid, some num =>
      if root != "" && parentId != 0 then some (.expandTask root parentId nid num tr.finalLLMOutput)
      else none
    | _, _, _, _ => none
  else if name == "analyze_project_complexity" && statusOk && outTruthy then
    match rootOpt with
    | some root => if root != "" then some (.analyzeComplexity root tr.finalLLMOutput) else none
    | none => none
  else if name == "update_task" && statusOk && outTruthy then
    match rootOpt, pendingData.originalToolArgs.id with
    | some root, some taskId =>
      if root != "" && taskId != "" then some (.updateTask root taskId tr.finalLLMOutput) else none
    | _, _ => none
  else if name == "add_task" && statusOk && outTruthy then
    match rootOpt, reqParams with
    | some root, some params =>
      if root != "" then some (.addTask root params tr.finalLLMOutput) else none
    | _, _ => none
  else if name == "update_subtask" && statusOk && outTruthy then
    match rootOpt, pendingData.originalToolArgs.id with
    | some root, some subtaskId =>
      if root != "" && subtaskId != "" then some (.updateSubtask root subtaskId tr.finalLLMOutput) else none
    | _, _ => none
  else if (name == "update" ||
      (pendingData.delegatedCallDetails.map (fun d => d.originalCommand)) == some "update-tasks")
      && statusOk && outTruthy then
    match rootOpt with
    | some root => if root != "" then some (.bulkUpdate root tr.finalLLMOutput) else none
    | none => none
  else if name == "research" && statusOk && outTruthy then
    match rootOpt with
    | some root => if root != "" then some (.research root tr.finalLLMOutput) else none
    | none => none
  else none

/-- One invocation of the wrapped executor, given the result the wrapped tool
produced.  Mirrors _getWrappedToolExecutor: the delegation-signal branch
(validate the interaction id, require the registered agent_llm tool, insert
the Pending Record, schedule the directive dispatch, return the tool result
unchanged), the agent-callback branch (look up the record, emit the resolve
or reject action, schedule post-processing, delete the record, acknowledge),
and the default pass-through. -/
def wrappedToolExecutor (toolName : String) (toolArgs : OriginalToolArgs)
    (session : Session) (brokerRegistered : Bool) (now : Nat)
    (reg : Registry) (toolResult : ToolResult) : WrapperOutput :=
  match signalOf toolResult with
  | some pi =>
    if !(strTruthy pi.interactionId) then
      ⟨reg, .errorResponse ("Internal error: pendingInteraction missing interactionId for " ++ toolName),
        none, none, none⟩
    else if !brokerRegistered then
      ⟨reg, .errorResponse ("Internal server error: agent_llm tool not found, cannot delegate for " ++ toolName),
        none, none, none⟩
    else
      let iid := pi.interactionId.getD ""
      let newRecord : PendingRecord :=
        ⟨toolName, toolArgs, session, now, pi.delegatedCallDetails⟩
      let projectRoot :=
        (jsOrStr (jsOrStr toolArgs.projectRoot session.roots.head?) (some ".")).getD "."
      ⟨regSet reg iid newRecord, .passThrough toolResult, none,
        some ⟨iid, pi.delegatedCallDetails, projectRoot⟩, none⟩
  | none =>
    if toolName == "agent_llm" && strTruthy toolResult.interactionId
        && toolResult.finalLLMOutput.isSome then
      let iid := toolResult.interactionId.getD ""
      match regGet reg iid with
      | none =>
        ⟨reg, .errorResponse ("Agent response for unknown/expired interaction ID: " ++ iid),
          none, none, none⟩
      | some pendingData =>
        if toolResult.status == some "llm_response_error" || strTruthy toolResult.error then
          let msg := (jsOrStr toolResult.error toolResult.finalLLMOutput).getD "Agent LLM call failed"
          ⟨regDel reg iid, .ack iid, some (.rejectWith msg), none, none⟩
        else
          let tagInfo :=
            ((reqParamsOf pendingData).bind (fun r => r.tagInfo)).getD ⟨"master", ["master"]⟩
          let rd : ResolvedData := ⟨toolResult.finalLLMOutput, none, tagInfo⟩
          ⟨regDel reg iid, .ack iid, some (.resolveWith rd), none,
            postProcessFor pendingData toolResult⟩
    else
      ⟨reg, .passThrough toolResult, none, none, none⟩
where
  reqParamsOf (pendingData : PendingRecord) : Option RequestParameters :=
    pendingData.delegatedCallDetails.map (fun d => d.requestParameters)

/-- Status field of a Broker Tool result as the dispatch continuation reads
it (a createErrorResponse value has no status property). -/
def brokerStatusOf : BrokerResult → Option String
  | .directive _ _ => some "pending_agent_llm_action"
  | .completion st _ _ _ => some st
  | .errorResponse _ => none

/-- Settlement of the background directive dispatch: the then-continuation
receives the Broker Tool result, the catch-continuation an exception. -/
inductive DispatchSettle where
  | fulfilled (r : BrokerResult)
  | rejectedWith (msg : String)
deriving Repr, DecidableEq

/-- The then/catch continuations of the directive dispatch: reject and delete
the record when the dispatch result carries an unexpected truthy status, or
when the dispatch threw. -/
def handleDispatchSettled (reg : Registry) (iid : String)
    (s : DispatchSettle) : Registry × Option ResolverAction :=
  match s with
  | .fulfilled r =>
    match brokerStatusOf r with
    | some st =>
      if st != "" && st != "pending_agent_llm_action" then
        match regGet reg iid with
        | some _ =>
          (regDel reg iid, some (.rejectWith "agent_llm tool failed during dispatch setup"))
        | none => (reg, none)
      else (reg, none)
    | none => (reg, none)
  | .rejectedWith m =>
    match regGet reg iid with
    | some _ => (regDel reg iid, some (.rejectWith ("Failed to dispatch to agent_llm: " ++ m)))
    | none => (reg, none)

/-- An event that can touch the interaction registry: a wrapped tool
invocation, or the settlement of a previously scheduled directive dispatch.
Nothing else in the source mutates pendingAgentLLMInteractions. -/
inductive WrapperEvent where
  | invoke (toolName : String) (toolArgs : OriginalToolArgs) (session : Session)
      (brokerRegistered : Bool) (now : Nat) (tr : ToolResult)
  | dispatchSettled (iid : String) (s : DispatchSettle)
deriving Repr, DecidableEq

/-- Registry evolution under one event. -/
def stepRegistry (reg : Registry) (e : WrapperEvent) : Registry :=
  match e with
  | .invoke n a s b now tr => (wrappedToolExecutor n a s b now reg tr).registry
  | .dispatchSettled iid s => (handleDispatchSettled reg iid s).1

/-- Events that could remove the record of the given interaction id: an
agent_llm callback carrying that id, or a settlement of its dispatch. -/
def removesId (iid : String) : WrapperEvent → Bool
  | .invoke toolName _ _ _ _ tr =>
    toolName == "agent_llm" && strTruthy tr.interactionId
      && tr.finalLLMOutput.isSome && tr.interactionId.getD "" == iid
  | .dispatchSettled i _ => i == iid

/-- The shape of a direct-function result as the expand-task tool handler
inspects it. -/
structure DirectFunctionResult where
  needsAgentDelegation : Bool
  pendingInteraction : Option PendingInteraction
deriving Repr, DecidableEq

/-- The delegation-signal handling of the expand-task tool: a direct-function
result with needsAgentDelegation and a pendingInteraction is converted into
the embedded-resource envelope with the sentinel uri; otherwise the handler
falls through to normal result handling (the fallback). -/
def expandTaskToolWrap (result : DirectFunctionResult) (fallback : ToolResult) : ToolResult :=
  if result.needsAgentDelegation then
    match result.pendingInteraction with
    | some pi =>
      { emptyToolResult with
          content := [⟨"resource",
            some ⟨"agent-llm://pending-interaction", "application/json", some ⟨true, some pi⟩⟩⟩] }
    | none => fallback
  else fallback

/-! Supporting lemmas. -/

/-- Mapping g over an update of the first p-element is the identity on the
image when f preserves g on p-elements. -/
theorem updateFirstBy_map (p : α → Bool) (f : α → α) (g : α → β)
    (h : ∀ a, p a = true → g (f a) = g a) :
    ∀ l : List α, (updateFirstBy p f l).map g = l.map g
  | [] => rfl
  | x :: xs => by
    simp only [updateFirstBy]
    by_cases hp : p x
    · simp [hp, h x hp]
    · simp [hp, updateFirstBy_map p f g h xs]

/-- Lookup after delete: gone for the deleted key, unchanged otherwise. -/
theorem regGet_regDel (reg : Registry) (k k' : String) :
    regGet (regDel reg k) k' = if k' = k then none else regGet reg k' := by
  induction reg with
  | nil => by_cases h : k' = k <;> simp [regDel, regGet, h]
  | cons hd tl ih =>
    by_cases h1 : hd.1 = k <;> by_cases h2 : hd.1 = k' <;> by_cases h : k' = k <;>
      simp_all [regDel, regGet]

/-- Lookup after set: the new record for the set key, unchanged otherwise. -/
theorem regGet_regSet (reg : Registry) (k k' : String) (v : PendingRecord) :
    regGet (regSet reg k v) k' = if k' = k then some v else regGet reg k' := by
  induction reg with
  | nil => by_cases h : k' = k <;> simp [regSet, regGet, h, Ne.symm]
  | cons hd tl ih =>
    by_cases h1 : hd.1 = k <;> by_cases h2 : hd.1 = k' <;> by_cases h : k' = k <;>
      simp_all [regSet, regGet]

/-- Characters produced by a run-squash are the replacement character or
input characters outside runs. -/
theorem mem_squashRuns (p : Char → Bool) (out : Char) :
    ∀ (l : List Char) (b : Bool) (c : Char), c ∈ squashRuns p out l b →
      c = out ∨ (c ∈ l ∧ p c = false) := by
  intro l
  induction l with
  | nil => intro b c h; simp [squashRuns] at h
  | cons x xs ih =>
    intro b c h
    by_cases hp : p x
    · by_cases hb : b
      · simp only [squashRuns, hp, hb, if_true] at h
        rcases ih true c h with h1 | h2
        · exact Or.inl h1
        · exact Or.inr ⟨List.mem_cons_of_mem x h2.1, h2.2⟩
      · simp only [squashRuns, hp, hb, if_true, if_false] at h
        rcases List.mem_cons.mp h with h1 | h1
        · exact Or.inl h1
        · rcases ih true c h1 with h2 | h3
          · exact Or.inl h2
          · exact Or.inr ⟨List.mem_cons_of_mem x h3.1, h3.2⟩
    · simp only [squashRuns, hp, if_false] at h
      rcases List.mem_cons.mp h with h1 | h1
      · refine Or.inr ⟨?_, ?_⟩
        · rw [h1]; exact List.mem_cons_self x xs
        · rw [h1]; simpa using hp
      · rcases ih false c h1 with h2 | h3
        · exact Or.inl h2
        · exact Or.inr ⟨List.mem_cons_of_mem x h3.1, h3.2⟩

/-- Trailing-hyphen removal never grows the list. -/
theorem dropTrailingHyphens_length_le :
    ∀ l : List Char, (dropTrailingHyphens l).length ≤ l.length
  | [] => le_refl _
  | c :: rest => by
    simp only [dropTrailingHyphens]
    cases h : dropTrailingHyphens rest with
    | nil =>
      by_cases hc : c = '-' <;> simp [hc, Nat.succ_le_succ, Nat.zero_le]
    | cons r rs =>
      have := dropTrailingHyphens_length_le rest
      rw [h] at this
      simpa using Nat.succ_le_succ this

/-- Trailing-hyphen removal only keeps input characters. -/
theorem mem_dropTrailingHyphens :
    ∀ (l : List Char) (c : Char), c ∈ dropTrailingHyphens l → c ∈ l
  | [], c => by simp [dropTrailingHyphens]
  | x :: rest, c => by
    simp only [dropTrailingHyphens]
    cases h : dropTrailingHyphens rest with
    | nil =>
      by_cases hc : x = '-' <;> simp [hc]
      intro h1; exact Or.inl h1
    | cons r rs =>
      intro h1
      rcases List.mem_cons.mp h1 with h2 | h2
      · exact List.mem_cons.mpr (Or.inl h2)
      · have : c ∈ dropTrailingHyphens rest := by rw [h]; exact h2
        exact List.mem_cons.mpr (Or.inr (mem_dropTrailingHyphens rest c this))

/-- Trailing-hyphen removal preserves the head when the result is nonempty. -/
theorem head?_dropTrailingHyphens :
    ∀ (l : List Char) (c : Char), (dropTrailingHyphens l).head? = some c →
      l.head? = some c
  | [], c => by simp [dropTrailingHyphens]
  | x :: rest, c => by
    simp only [dropTrailingHyphens]
    cases h : dropTrailingHyphens rest with
    | nil =>
      by_cases hc : x = '-' <;> simp [hc]
    | cons r rs => intro h1; simpa using h1

/-- Trailing-hyphen removal leaves no trailing hyphen. -/
theorem getLast?_dropTrailingHyphens :
    ∀ l : List Char, (dropTrailingHyphens l).getLast? ≠ some '-'
  | [] => by simp [dropTrailingHyphens]
  | x :: rest => by
    simp only [dropTrailingHyphens]
    cases h : dropTrailingHyphens rest with
    | nil =>
      by_cases hc : x = '-' <;> simp [hc]
    | cons r rs =>
      have ih := getLast?_dropTrailingHyphens rest
      rw [h] at ih
      simpa [List.getLast?_cons_cons] using ih

/-- Head of a dropWhile result never satisfies the predicate. -/
theorem head?_dropWhile_not (p : Char → Bool) :
    ∀ (l : List Char) (c : Char), (l.dropWhile p).head? = some c → p c = false
  | [], c => by simp
  | x :: rest, c => by
    simp only [List.dropWhile]
    by_cases hp : p x
    · simp only [hp, if_true]
      exact head?_dropWhile_not p rest c
    · simp only [hp, if_false]
      intro h1
      have : x = c := by simpa using h1
      subst this
      simpa using hp

/-- Slug length bound for the tail of the pipeline. -/
theorem slug_pipeline_length (l3 : List Char) :
    (dropTrailingHyphens ((l3.take 50).dropWhile (fun c => c == '-'))).length ≤ 50 :=
  le_trans (dropTrailingHyphens_length_le _)
    (le_trans (List.dropWhile_sublist _).length_le (by simp [List.length_take]))

/-- Generated slugs are at most 50 characters long. -/
theorem slugify_length_le (q : String) : (slugify q).length ≤ 50 :=
  slug_pipeline_length _

/-- Generated slugs contain only lowercase letters, digits and hyphens. -/
theorem slugify_chars (q : String) :
    ∀ c ∈ (slugify q).data, ('a' ≤ c ∧ c ≤ 'z') ∨ ('0' ≤ c ∧ c ≤ '9') ∨ c = '-' := by
  intro c h
  have h1 : c ∈ (((squashRuns (fun c => c == '-') '-'
      (squashRuns Char.isWhitespace '-' (q.toLower.data.filter allowedSlugChar) false)
      false).take 50).dropWhile (fun c => c == '-')) :=
    mem_dropTrailingHyphens _ c h
  have h2 : c ∈ ((squashRuns (fun c => c == '-') '-'
      (squashRuns Char.isWhitespace '-' (q.toLower.data.filter allowedSlugChar) false)
      false).take 50) :=
    (List.dropWhile_sublist _).mem h1
  have h3 : c ∈ squashRuns (fun c => c == '-') '-'
      (squashRuns Char.isWhitespace '-' (q.toLower.data.filter allowedSlugChar) false)
      false :=
    (List.take_sublist _ _).mem h2
  rcases mem_squashRuns _ _ _ _ c h3 with h4 | ⟨h4, hne⟩
  · exact Or.inr (Or.inr h4)
  · rcases mem_squashRuns _ _ _ _ c h4 with h5 | ⟨h5, hws⟩
    · exact Or.inr (Or.inr h5)
    · have h6 := (List.mem_filter.mp h5).2
      simp only [allowedSlugChar, Bool.or_eq_true, Bool.and_eq_true, decide_eq_true_eq,
        beq_iff_eq] at h6
      rcases h6 with ((h7 | h7) | h7) | h7
      · exact Or.inl h7
      · exact Or.inr (Or.inl h7)
      · simp [h7] at hws
      · rw [h7] at hne; simp at hne

/-- Generated slugs never start with a hyphen. -/
theorem slugify_head_not_hyphen (q : String) :
    (slugify q).data.head? ≠ some '-' := by
  intro h
  have h1 := head?_dropTrailingHyphens _ _ h
  have h2 := head?_dropWhile_not _ _ _ h1
  simp at h2

/-- Generated slugs never end with a hyphen. -/
theorem slugify_getLast_not_hyphen (q : String) :
    (slugify q).data.getLast? ≠ some '-' :=
  getLast?_dropTrailingHyphens _

/-- C9: two runs of the research save-to-file step with identical query, text
and date produce the same filename and byte-for-byte identical content; the
filename is the iso date prefix, an underscore, the slug of the query and the
md suffix, and the slug is at most 50 characters of lowercase alphanumerics
and hyphens with no edge hyphen. -/
theorem c9_research_save_deterministic (q1 q2 t1 t2 : String) (d1 d2 : DateRender)
    (hq : q1 = q2) (ht : t1 = t2) (hd : d1 = d2) :
    saveResearchToFile t1 q1 d1 = saveResearchToFile t2 q2 d2
    ∧ (saveResearchToFile t1 q1 d1).1 = d1.iso ++ "_" ++ slugify q1 ++ ".md"
    ∧ (saveResearchToFile t1 q1 d1).2
        = "# Research Query: " ++ q1 ++ "\n\n## Date: " ++ d1.locale ++ "\n\n" ++ t1
    ∧ (slugify q1).length ≤ 50
    ∧ (∀ c ∈ (slugify q1).data, ('a' ≤ c ∧ c ≤ 'z') ∨ ('0' ≤ c ∧ c ≤ '9') ∨ c = '-')
    ∧ (slugify q1).data.head? ≠ some '-'
    ∧ (slugify q1).data.getLast? ≠ some '-' := by
  subst hq; subst ht; subst hd
  exact ⟨rfl, rfl, rfl, slugify_length_le q1, slugify_chars q1,
    slugify_head_not_hyphen q1, slugify_getLast_not_hyphen q1⟩

/-- Witness for C9 at a concrete query, text and date. -/
theorem c9_research_save_deterministic_witness :
    saveResearchToFile "text" "What is X?" ⟨"2026-10-12", "10/12/2026"⟩
      = saveResearchToFile "text" "What is X?" ⟨"2026-10-12", "10/12/2026"⟩
    ∧ (slugify "What is X?").length ≤ 50
    ∧ (slugify "What is X?").data.getLast? ≠ some '-' := by
  have h := c9_research_save_deterministic "What is X?" "What is X?" "text" "text"
    ⟨"2026-10-12", "10/12/2026"⟩ ⟨"2026-10-12", "10/12/2026"⟩ rfl rfl rfl
  exact ⟨h.1, h.2.2.2.1, h.2.2.2.2.2.2⟩

/-- C5 counterexample: with both delegatedCallDetails and agentLLMResponse
present the Broker Tool returns the normal Host-to-Agent directive, not a
structured ambiguity error. -/
theorem c5_broker_arg_errors_counterexample :
    agentLLMExecute "fresh-uuid"
      ⟨some "I1",
        some ⟨"parse-prd", "main", "generateObject", emptyRequestParameters⟩,
        some ⟨"success", some "out", none⟩, "/proj"⟩
      = .directive "I1" emptyRequestParameters
    ∧ ∀ msg, agentLLMExecute "fresh-uuid"
      ⟨some "I1",
        some ⟨"parse-prd", "main", "generateObject", emptyRequestParameters⟩,
        some ⟨"success", some "out", none⟩, "/proj"⟩
      ≠ .errorResponse msg := by
  constructor
  · rfl
  · intro msg h
    simp [agentLLMExecute, jsOrStr, strTruthy] at h

/-- C5 amended: missing interactionId on the agent form yields the structured
missing-id error and an absent form pair yields the structured
invalid-arguments error, but when delegatedCallDetails is present the
delegation branch takes precedence unconditionally and returns the directive;
no ambiguity error exists in the source. -/
theorem c5_broker_arg_errors_amended (freshId : String) (args : AgentLLMArgs) :
    (args.delegatedCallDetails = none → args.agentLLMResponse.isSome →
      strTruthy args.interactionId = false →
      agentLLMExecute freshId args
        = .errorResponse "agent_llm: Agent response is missing interactionId.")
    ∧ (args.delegatedCallDetails = none → args.agentLLMResponse = none →
      agentLLMExecute freshId args
        = .errorResponse "Invalid parameters for agent_llm tool: Must provide either delegatedCallDetails or agentLLMResponse.")
    ∧ (∀ dcd, args.delegatedCallDetails = some dcd →
      agentLLMExecute freshId args
        = .directive ((jsOrStr args.interactionId (some freshId)).getD freshId)
            dcd.requestParameters) := by
  refine ⟨?_, ?_, ?_⟩
  · intro h1 h2 h3
    rcases ha : args.agentLLMResponse with _ | r
    · rw [ha] at h2; simp at h2
    · simp [agentLLMExecute, h1, ha, h3]
  · intro h1 h2
    simp [agentLLMExecute, h1, h2]
  · intro dcd h1
    simp [agentLLMExecute, h1]

/-- Witness for C5 amended at concrete broker arguments. -/
theorem c5_broker_arg_errors_amended_witness :
    agentLLMExecute "F" ⟨none, none, some ⟨"success", some "x", none⟩, "/p"⟩
      = .errorResponse "agent_llm: Agent response is missing interactionId."
    ∧ agentLLMExecute "F" ⟨none, none, none, "/p"⟩
      = .errorResponse "Invalid parameters for agent_llm tool: Must provide either delegatedCallDetails or agentLLMResponse."
    ∧ agentLLMExecute "F"
      ⟨some "I2", some ⟨"expand-task", "main", "generateText", emptyRequestParameters⟩,
        none, "/p"⟩
      = .directive "I2" emptyRequestParameters := by
  refine ⟨?_, ?_, ?_⟩
  · exact (c5_broker_arg_errors_amended "F"
      ⟨none, none, some ⟨"success", some "x", none⟩, "/p"⟩).1 rfl rfl rfl
  · exact (c5_broker_arg_errors_amended "F" ⟨none, none, none, "/p"⟩).2.1 rfl rfl
  · exact (c5_broker_arg_errors_amended "F"
      ⟨some "I2", some ⟨"expand-task", "main", "generateText", emptyRequestParameters⟩,
        none, "/p"⟩).2.2 _ rfl

/-- Id image is unchanged when the update function preserves ids of matching
tasks. -/
theorem map_id_updateFirstTask (tasks : List TmTask) (id : Nat) (f : TmTask → TmTask)
    (h : ∀ t, (t.id == id) = true → (f t).id = t.id) :
    (updateFirstTask tasks id f).map (fun t => t.id) = tasks.map (fun t => t.id) :=
  updateFirstBy_map _ f _ h tasks

/-- Subtask-id image is unchanged when the update function preserves the
subtask ids of matching tasks. -/
theorem subids_updateFirstTask (tasks : List TmTask) (id : Nat) (f : TmTask → TmTask)
    (h : ∀ t, (t.id == id) = true →
      (f t).subtasks.map (fun st => st.id) = t.subtasks.map (fun st => st.id)) :
    (updateFirstTask tasks id f).map (fun t => t.subtasks.map (fun st => st.id))
      = tasks.map (fun t => t.subtasks.map (fun st => st.id)) :=
  updateFirstBy_map _ f _ h tasks

/-- Subtask-id image of a subtask list is unchanged when the update preserves
the id of matching subtasks. -/
theorem map_id_updateFirstSubtask (subs : List Subtask) (id : Nat) (f : Subtask → Subtask)
    (h : ∀ st, (st.id == id) = true → (f st).id = st.id) :
    (updateFirstSubtask subs id f).map (fun st => st.id) = subs.map (fun st => st.id) :=
  updateFirstBy_map _ f _ h subs

/-- C8: when the delegated newTaskId collides with the id of a task already in
the store, saveNewTaskFromAgent fails and writes nothing. -/
theorem c8_add_task_id_collision (p : AgentTaskPayload) (args : OriginalToolArgs)
    (params : RequestParameters) (n : Nat) (tasks : List TmTask)
    (hn : params.newTaskId = some n)
    (hcol : (tasks.any (fun t => t.id == n)) = true) :
    (saveNewTaskFromAgent (some p) args (some params) true tasks).1 = none
    ∧ (saveNewTaskFromAgent (some p) args (some params) true tasks).2.success = false := by
  constructor <;> simp [saveNewTaskFromAgent, hn, hcol]

/-- Witness for C8 at a concrete collision. -/
theorem c8_add_task_id_collision_witness :
    (saveNewTaskFromAgent (some emptyAgentTaskPayload) ⟨some "/p", none, false, some "do"⟩
      (some { emptyRequestParameters with newTaskId := some 1 }) true
      [⟨1, "t1", "", "", "pending", "", "medium", [], []⟩]).1 = none
    ∧ (saveNewTaskFromAgent (some emptyAgentTaskPayload) ⟨some "/p", none, false, some "do"⟩
      (some { emptyRequestParameters with newTaskId := some 1 }) true
      [⟨1, "t1", "", "", "pending", "", "medium", [], []⟩]).2.success = false :=
  c8_add_task_id_collision emptyAgentTaskPayload ⟨some "/p", none, false, some "do"⟩
    { emptyRequestParameters with newTaskId := some 1 } 1
    [⟨1, "t1", "", "", "pending", "", "medium", [], []⟩] rfl (by decide)

/-- C10: neither the single-task saver nor the bulk saver ever renumbers a
stored task: the id sequence of the store is untouched by every run, and on
the dotted subtask path the single-task saver also leaves every subtask id
sequence unchanged. -/
theorem c10_savers_preserve_ids (parser : String → Option AgentTaskPayload)
    (bparser : String → Option (List AgentTaskPayload))
    (agentOutput : AgentOutput) (bulkOut : BulkAgentOutput)
    (ref : TaskRef) (args : OriginalToolArgs) (ts : String) (tasks : List TmTask)
    (p q : Nat) :
    ((saveUpdatedTaskFromAgent parser agentOutput ref args ts tasks).1.map (fun t => t.id)
      = tasks.map (fun t => t.id))
    ∧ ((saveMultipleTasksFromAgent bparser bulkOut tasks).1.map (fun t => t.id)
      = tasks.map (fun t => t.id))
    ∧ ((saveUpdatedTaskFromAgent parser agentOutput (.sub p q) args ts tasks).1.map
        (fun t => t.subtasks.map (fun st => st.id))
      = tasks.map (fun t => t.subtasks.map (fun st => st.id))) := by
  refine ⟨?_, ?_, ?_⟩
  · unfold saveUpdatedTaskFromAgent
    cases h0 : findTargetItem tasks ref with
    | none => rfl
    | some pr =>
      cases agentOutput with
      | str s =>
        cases hA : args.append with
        | true =>
          simp only []
          split
          · rfl
          · cases ref with
            | top id => exact map_id_updateFirstTask _ _ _ (fun t _ => rfl)
            | sub a b => exact map_id_updateFirstTask _ _ _ (fun t _ => rfl)
        | false =>
          simp only []
          cases parser s with
          | none => rfl
          | some pl =>
            simp only []
            split
            · rfl
            · cases ref with
              | sub a b => exact map_id_updateFirstTask _ _ _ (fun t _ => rfl)
              | top id =>
                refine map_id_updateFirstTask _ _ _ (fun t ht => ?_)
                simp only [mergeTaskPayload]
                exact (by simpa using ht : t.id = id).symm
      | obj pl =>
        simp only []
        split
        · rfl
        · cases ref with
          | sub a b => exact map_id_updateFirstTask _ _ _ (fun t _ => rfl)
          | top id =>
            refine map_id_updateFirstTask _ _ _ (fun t ht => ?_)
            simp only [mergeTaskPayload]
            exact (by simpa using ht : t.id = id).symm
  · unfold saveMultipleTasksFromAgent
    simp only []
    split
    · rfl
    · rw [List.map_map]
      refine List.map_congr_left (fun t _ => ?_)
      simp only [Function.comp]
      split
      · rfl
      · split
        · rfl
        · rfl
  · unfold saveUpdatedTaskFromAgent
    cases h0 : findTargetItem tasks (TaskRef.sub p q) with
    | none => rfl
    | some pr =>
      cases agentOutput with
      | str s =>
        cases hA : args.append with
        | true =>
          simp only []
          split
          · rfl
          · refine subids_updateFirstTask _ _ _ (fun t _ => ?_)
            exact map_id_updateFirstSubtask _ _ _ (fun st _ => rfl)
        | false =>
          simp only []
          cases parser s with
          | none => rfl
          | some pl =>
            simp only []
            split
            · rfl
            · refine subids_updateFirstTask _ _ _ (fun t _ => ?_)
              refine map_id_updateFirstSubtask _ _ _ (fun st hst => ?_)
              simp only [mergeSubtaskPayload]
              exact (by simpa using hst : st.id = q).symm
      | obj pl =>
        simp only []
        split
        · rfl
        · refine subids_updateFirstTask _ _ _ (fun t _ => ?_)
          refine map_id_updateFirstSubtask _ _ _ (fun st hst => ?_)
          simp only [mergeSubtaskPayload]
          exact (by simpa using hst : st.id = q).symm


/-- C7: when a wrapped tool result carries the detected delegation signal with
a valid interaction id and the Broker Tool is registered, the wrapper returns
the identical tool result to the caller while inserting the Pending Record
and scheduling the directive dispatch as side effects. -/
theorem c7_signal_pass_through (toolName : String) (toolArgs : OriginalToolArgs)
    (session : Session) (reg : Registry) (now : Nat) (tr : ToolResult)
    (pi : PendingInteraction) (iid : String)
    (hsig : signalOf tr = some pi)
    (hiid : pi.interactionId = some iid) (hne : iid ≠ "") :
    (wrappedToolExecutor toolName toolArgs session true now reg tr).response
      = .passThrough tr
    ∧ regGet (wrappedToolExecutor toolName toolArgs session true now reg tr).registry iid
      = some ⟨toolName, toolArgs, session, now, pi.delegatedCallDetails⟩
    ∧ (wrappedToolExecutor toolName toolArgs session true now reg tr).brokerDispatch.isSome
      = true := by
  have htr : strTruthy pi.interactionId = true := by simp [hiid, strTruthy, hne]
  have htr2 : strTruthy (some iid) = true := by simp [strTruthy, hne]
  refine ⟨?_, ?_, ?_⟩ <;>
    simp [wrappedToolExecutor, hsig, htr, htr2, hiid, regGet_regSet]

/-- Witness for C7 at a concrete embedded-resource delegation signal. -/
theorem c7_signal_pass_through_witness :
    (wrappedToolExecutor "expand_task" ⟨some "/p", some "7", false, none⟩ ⟨[]⟩ true 5 []
        { emptyToolResult with content := [⟨"resource",
          some ⟨"agent-llm://pending-interaction", "application/json",
            some ⟨true, some ⟨"agent_llm", some "I1",
              some ⟨"expand-task", "main", "generateText", emptyRequestParameters⟩⟩⟩⟩⟩] }).response
      = .passThrough { emptyToolResult with content := [⟨"resource",
          some ⟨"agent-llm://pending-interaction", "application/json",
            some ⟨true, some ⟨"agent_llm", some "I1",
              some ⟨"expand-task", "main", "generateText", emptyRequestParameters⟩⟩⟩⟩⟩] }
    ∧ regGet (wrappedToolExecutor "expand_task" ⟨some "/p", some "7", false, none⟩ ⟨[]⟩ true 5 []
        { emptyToolResult with content := [⟨"resource",
          some ⟨"agent-llm://pending-interaction", "application/json",
            some ⟨true, some ⟨"agent_llm", some "I1",
              some ⟨"expand-task", "main", "generateText", emptyRequestParameters⟩⟩⟩⟩⟩] }).registry "I1"
      = some ⟨"expand_task", ⟨some "/p", some "7", false, none⟩, ⟨[]⟩, 5,
          some ⟨"expand-task", "main", "generateText", emptyRequestParameters⟩⟩ := by
  have h := c7_signal_pass_through "expand_task" ⟨some "/p", some "7", false, none⟩ ⟨[]⟩ [] 5
    { emptyToolResult with content := [⟨"resource",
      some ⟨"agent-llm://pending-interaction", "application/json",
        some ⟨true, some ⟨"agent_llm", some "I1",
          some ⟨"expand-task", "main", "generateText", emptyRequestParameters⟩⟩⟩⟩⟩] }
    ⟨"agent_llm", some "I1", some ⟨"expand-task", "main", "generateText", emptyRequestParameters⟩⟩
    "I1" (by decide) rfl (by decide)
  exact ⟨h.1, h.2.1⟩

/-- C2: the first agent callback carrying an interaction id with a stored
record invokes the resolver once, deletes the record and acknowledges; a
second callback with the same id finds no record, invokes no resolver and
returns the unknown-interaction structured error. -/
theorem c2_single_shot_resolution (toolArgs : OriginalToolArgs) (session : Session)
    (broker : Bool) (now1 now2 : Nat) (reg : Registry) (tr : ToolResult)
    (iid : String) (recd : PendingRecord)
    (hsig : signalOf tr = none)
    (hiid : tr.interactionId = some iid) (hne : iid ≠ "")
    (hout : tr.finalLLMOutput.isSome = true)
    (hreg : regGet reg iid = some recd) :
    ((wrappedToolExecutor "agent_llm" toolArgs session broker now1 reg tr).resolverAction.isSome
      = true)
    ∧ (wrappedToolExecutor "agent_llm" toolArgs session broker now1 reg tr).registry
      = regDel reg iid
    ∧ regGet (wrappedToolExecutor "agent_llm" toolArgs session broker now1 reg tr).registry iid
      = none
    ∧ (wrappedToolExecutor "agent_llm" toolArgs session broker now1 reg tr).response = .ack iid
    ∧ ((wrappedToolExecutor "agent_llm" toolArgs session broker now2
        (wrappedToolExecutor "agent_llm" toolArgs session broker now1 reg tr).registry
        tr).resolverAction = none)
    ∧ ((wrappedToolExecutor "agent_llm" toolArgs session broker now2
        (wrappedToolExecutor "agent_llm" toolArgs session broker now1 reg tr).registry
        tr).response
      = .errorResponse ("Agent response for unknown/expired interaction ID: " ++ iid))
    ∧ ((wrappedToolExecutor "agent_llm" toolArgs session broker now2
        (wrappedToolExecutor "agent_llm" toolArgs session broker now1 reg tr).registry
        tr).registry
      = regDel reg iid) := by
  have htr2 : strTruthy (some iid) = true := by simp [strTruthy, hne]
  have hdel : regGet (regDel reg iid) iid = none := by
    simpa using regGet_regDel reg iid iid
  have hact :
      (wrappedToolExecutor "agent_llm" toolArgs session broker now1 reg tr).resolverAction.isSome
        = true := by
    simp only [wrappedToolExecutor, hsig, hiid, htr2, hout, Option.getD_some, hreg]
    by_cases herr : (tr.status == some "llm_response_error" || strTruthy tr.error) = true <;>
      simp [herr]
  have hreg1 :
      (wrappedToolExecutor "agent_llm" toolArgs session broker now1 reg tr).registry
        = regDel reg iid := by
    simp only [wrappedToolExecutor, hsig, hiid, htr2, hout, Option.getD_some, hreg]
    by_cases herr : (tr.status == some "llm_response_error" || strTruthy tr.error) = true <;>
      simp [herr]
  have hres1 :
      (wrappedToolExecutor "agent_llm" toolArgs session broker now1 reg tr).response
        = .ack iid := by
    simp only [wrappedToolExecutor, hsig, hiid, htr2, hout, Option.getD_some, hreg]
    by_cases herr : (tr.status == some "llm_response_error" || strTruthy tr.error) = true <;>
      simp [herr]
  have hsecond :
      wrappedToolExecutor "agent_llm" toolArgs session broker now2 (regDel reg iid) tr
        = ⟨regDel reg iid,
            .errorResponse ("Agent response for unknown/expired interaction ID: " ++ iid),
            none, none, none⟩ := by
    simp only [wrappedToolExecutor, hsig, hiid, htr2, hout, Option.getD_some, hdel]
    simp
  refine ⟨hact, hreg1, ?_, hres1, ?_, ?_, ?_⟩ <;> rw [hreg1] <;> try rw [hsecond]
  exact hdel

/-- Witness for C2 at a concrete registry and callback. -/
theorem c2_single_shot_resolution_witness :
    ((wrappedToolExecutor "agent_llm" ⟨some "/p", none, false, none⟩ ⟨[]⟩ true 9
      [("I1", ⟨"update_task", ⟨some "/p", some "3", false, none⟩, ⟨[]⟩, 0, none⟩)]
      { emptyToolResult with
          interactionId := some "I1"
          finalLLMOutput := some "out"
          status := some "llm_response_completed" }).resolverAction.isSome = true)
    ∧ regGet (wrappedToolExecutor "agent_llm" ⟨some "/p", none, false, none⟩ ⟨[]⟩ true 9
      [("I1", ⟨"update_task", ⟨some "/p", some "3", false, none⟩, ⟨[]⟩, 0, none⟩)]
      { emptyToolResult with
          interactionId := some "I1"
          finalLLMOutput := some "out"
          status := some "llm_response_completed" }).registry "I1" = none := by
  have h := c2_single_shot_resolution ⟨some "/p", none, false, none⟩ ⟨[]⟩ true 9 9
    [("I1", ⟨"update_task", ⟨some "/p", some "3", false, none⟩, ⟨[]⟩, 0, none⟩)]
    { emptyToolResult with
        interactionId := some "I1"
        finalLLMOutput := some "out"
        status := some "llm_response_completed" }
    "I1" ⟨"update_task", ⟨some "/p", some "3", false, none⟩, ⟨[]⟩, 0, none⟩
    rfl rfl (by decide) rfl (by decide)
  exact ⟨h.1, h.2.2.1⟩

/-- C1 counterexample: a tool result in the plain-object signal shape
(needsAgentDelegation with a pendingInteraction, no embedded resource) is not
detected by the wrapper: no Pending Record is inserted, no directive is
dispatched, and the result passes through on the default path. -/
theorem c1_signal_shapes_counterexample :
    ((wrappedToolExecutor "expand_task" ⟨some "/p", some "7", false, none⟩ ⟨[]⟩ true 0 []
      { emptyToolResult with
          needsAgentDelegation := true
          pendingInteraction := some ⟨"agent_llm", some "I1",
            some ⟨"expand-task", "main", "generateText", emptyRequestParameters⟩⟩ }).registry
      = [])
    ∧ ((wrappedToolExecutor "expand_task" ⟨some "/p", some "7", false, none⟩ ⟨[]⟩ true 0 []
      { emptyToolResult with
          needsAgentDelegation := true
          pendingInteraction := some ⟨"agent_llm", some "I1",
            some ⟨"expand-task", "main", "generateText", emptyRequestParameters⟩⟩ }).brokerDispatch
      = none)
    ∧ ((wrappedToolExecutor "expand_task" ⟨some "/p", some "7", false, none⟩ ⟨[]⟩ true 0 []
      { emptyToolResult with
          needsAgentDelegation := true
          pendingInteraction := some ⟨"agent_llm", some "I1",
            some ⟨"expand-task", "main", "generateText", emptyRequestParameters⟩⟩ }).response
      = .passThrough { emptyToolResult with
          needsAgentDelegation := true
          pendingInteraction := some ⟨"agent_llm", some "I1",
            some ⟨"expand-task", "main", "generateText", emptyRequestParameters⟩⟩ }) :=
  ⟨rfl, rfl, rfl⟩

/-- C1 amended: the wrapper detects only the embedded-resource shape of the
delegation signal, for which it inserts the Pending Record and dispatches the
directive; a result without a first resource content item, whatever its
needsAgentDelegation and pendingInteraction fields say, passes through with
the registry untouched and nothing dispatched.  The plain-object shape is
translated into the resource shape by the tool handlers (here the expand-task
tool) before the wrapper inspects the result. -/
theorem c1_signal_shapes_amended (toolName : String) (toolArgs : OriginalToolArgs)
    (session : Session) (reg : Registry) (now : Nat) (tr : ToolResult)
    (pi : PendingInteraction) (iid : String) (r : DirectFunctionResult)
    (fallback : ToolResult) :
    (signalOf tr = some pi → pi.interactionId = some iid → iid ≠ "" →
      regGet (wrappedToolExecutor toolName toolArgs session true now reg tr).registry iid
        = some ⟨toolName, toolArgs, session, now, pi.delegatedCallDetails⟩
      ∧ (wrappedToolExecutor toolName toolArgs session true now reg tr).brokerDispatch
        = some ⟨iid, pi.delegatedCallDetails,
            (jsOrStr (jsOrStr toolArgs.projectRoot session.roots.head?) (some ".")).getD "."⟩)
    ∧ (tr.content = [] → (toolName == "agent_llm") = false →
      wrappedToolExecutor toolName toolArgs session true now reg tr
        = ⟨reg, .passThrough tr, none, none, none⟩)
    ∧ (r.needsAgentDelegation = true → r.pendingInteraction = some pi →
      detectSignal (expandTaskToolWrap r fallback) = some pi) := by
  refine ⟨?_, ?_, ?_⟩
  · intro hsig hiid hne
    have htr : strTruthy pi.interactionId = true := by simp [hiid, strTruthy, hne]
    have htr2 : strTruthy (some iid) = true := by simp [strTruthy, hne]
    constructor <;> simp [wrappedToolExecutor, hsig, htr, htr2, hiid, regGet_regSet]
  · intro hc hn
    have hsig : signalOf tr = none := by simp [signalOf, detectSignal, hc]
    simp [wrappedToolExecutor, hsig, hn]
  · intro hd hp
    simp [expandTaskToolWrap, hd, hp, detectSignal]

/-- Witness for C1 amended at concrete inputs for all three parts. -/
theorem c1_signal_shapes_amended_witness :
    regGet (wrappedToolExecutor "expand_task" ⟨some "/p", some "7", false, none⟩ ⟨[]⟩ true 0 []
      { emptyToolResult with content := [⟨"resource",
        some ⟨"agent-llm://pending-interaction", "application/json",
          some ⟨true, some ⟨"agent_llm", some "I9",
            some ⟨"expand-task", "main", "generateText", emptyRequestParameters⟩⟩⟩⟩⟩] }).registry
      "I9"
      = some ⟨"expand_task", ⟨some "/p", some "7", false, none⟩, ⟨[]⟩, 0,
          some ⟨"expand-task", "main", "generateText", emptyRequestParameters⟩⟩
    ∧ wrappedToolExecutor "get_tasks" ⟨some "/p", none, false, none⟩ ⟨[]⟩ true 0 []
        { emptyToolResult with needsAgentDelegation := true }
      = ⟨[], .passThrough { emptyToolResult with needsAgentDelegation := true }, none, none, none⟩
    ∧ detectSignal (expandTaskToolWrap
        ⟨true, some ⟨"agent_llm", some "I9", none⟩⟩ emptyToolResult)
      = some ⟨"agent_llm", some "I9", none⟩ := by
  have h := c1_signal_shapes_amended "expand_task" ⟨some "/p", some "7", false, none⟩ ⟨[]⟩ [] 0
    { emptyToolResult with content := [⟨"resource",
      some ⟨"agent-llm://pending-interaction", "application/json",
        some ⟨true, some ⟨"agent_llm", some "I9",
          some ⟨"expand-task", "main", "generateText", emptyRequestParameters⟩⟩⟩⟩⟩] }
    ⟨"agent_llm", some "I9", some ⟨"expand-task", "main", "generateText", emptyRequestParameters⟩⟩
    "I9" ⟨true, some ⟨"agent_llm", some "I9", none⟩⟩ emptyToolResult
  have h2 := c1_signal_shapes_amended "get_tasks" ⟨some "/p", none, false, none⟩ ⟨[]⟩ [] 0
    { emptyToolResult with needsAgentDelegation := true }
    ⟨"agent_llm", some "I9", none⟩ "I9" ⟨true, some ⟨"agent_llm", some "I9", none⟩⟩ emptyToolResult
  exact ⟨(h.1 (by decide) rfl (by decide)).1, h2.2.1 rfl (by decide), h2.2.2 rfl rfl⟩

/-- Presence of any record is preserved by an event that is not an agent
callback for its id and not a settlement of its dispatch. -/
theorem stepRegistry_preserves (reg : Registry) (iid : String) (e : WrapperEvent)
    (hpres : (regGet reg iid).isSome = true) (hno : removesId iid e = false) :
    (regGet (stepRegistry reg e) iid).isSome = true := by
  cases e with
  | invoke n a s b now tr =>
    show (regGet (wrappedToolExecutor n a s b now reg tr).registry iid).isSome = true
    cases hsig : signalOf tr with
    | some pi =>
      by_cases h1 : strTruthy pi.interactionId = true
      · by_cases h2 : b = true
        · simp only [wrappedToolExecutor, hsig, h1, h2, Bool.not_true, Bool.false_eq_true,
            if_false]
          rw [regGet_regSet]
          by_cases h3 : iid = pi.interactionId.getD "" <;> simp [h3, hpres]
        · have h2f : b = false := by revert h2; cases b <;> simp
          simp only [wrappedToolExecutor, hsig, h1, h2f, Bool.not_true, Bool.not_false,
            Bool.false_eq_true, if_false, if_true]
          exact hpres
      · have h1f : strTruthy pi.interactionId = false := by revert h1; cases strTruthy pi.interactionId <;> simp
        simp only [wrappedToolExecutor, hsig, h1f, Bool.not_false, if_true]
        exact hpres
    | none =>
      by_cases hc : (n == "agent_llm" && strTruthy tr.interactionId
          && tr.finalLLMOutput.isSome) = true
      · have hiidne : iid ≠ tr.interactionId.getD "" := by
          intro hEq
          rw [removesId, hEq] at hno
          simp only [Bool.and_eq_true] at hc
          simp [hc.1.1, hc.1.2, hc.2] at hno
        cases hg : regGet reg (tr.interactionId.getD "") with
        | none =>
          simp only [wrappedToolExecutor, hsig, hc, if_true, hg]
          exact hpres
        | some pd =>
          by_cases herr : (tr.status == some "llm_response_error" || strTruthy tr.error) = true <;>
            simp only [wrappedToolExecutor, hsig, hc, if_true, hg, herr, Bool.false_eq_true,
              if_false] <;>
            rw [regGet_regDel] <;> simp [hiidne, hpres]
      · have hcf : (n == "agent_llm" && strTruthy tr.interactionId
            && tr.finalLLMOutput.isSome) = false := by
          revert hc; cases h : (n == "agent_llm" && strTruthy tr.interactionId
            && tr.finalLLMOutput.isSome) <;> simp
        simp only [wrappedToolExecutor, hsig, hcf, Bool.false_eq_true, if_false]
        exact hpres
  | dispatchSettled i s =>
    have hne : iid ≠ i := by
      intro hEq
      rw [removesId, hEq] at hno
      simp at hno
    show (regGet (handleDispatchSettled reg i s).1 iid).isSome = true
    cases s with
    | fulfilled r =>
      cases hst : brokerStatusOf r with
      | none => simpa [handleDispatchSettled, hst] using hpres
      | some st =>
        by_cases hok : (st != "" && st != "pending_agent_llm_action") = true
        · cases hg : regGet reg i with
          | none => simpa [handleDispatchSettled, hst, hok, hg] using hpres
          | some pd =>
            simp only [handleDispatchSettled, hst, hok, hg, if_true]
            rw [regGet_regDel]
            simp [hne, hpres]
        · have hokf : (st != "" && st != "pending_agent_llm_action") = false := by
            revert hok; cases h : (st != "" && st != "pending_agent_llm_action") <;> simp
          simpa [handleDispatchSettled, hst, hokf] using hpres
    | rejectedWith m =>
      cases hg : regGet reg i with
      | none => simpa [handleDispatchSettled, hg] using hpres
      | some pd =>
        simp only [handleDispatchSettled, hg]
        rw [regGet_regDel]
        simp [hne, hpres]

/-- C3 counterexample: a Pending Record stored at time 0 is still in the
registry after a later wrapper invocation at time 10^12 ms, far beyond an
hour-scale TTL; no transition of the source removes a record by age, so the
record whose age exceeds the TTL is not reaped. -/
theorem c3_ttl_reaper_counterexample :
    regGet (stepRegistry (stepRegistry []
        (.invoke "expand_task" ⟨some "/p", some "7", false, none⟩ ⟨[]⟩ true 0
          { emptyToolResult with content := [⟨"resource",
            some ⟨"agent-llm://pending-interaction", "application/json",
              some ⟨true, some ⟨"agent_llm", some "I1",
                some ⟨"expand-task", "main", "generateText", emptyRequestParameters⟩⟩⟩⟩⟩] }))
        (.invoke "get_tasks" ⟨some "/p", none, false, none⟩ ⟨[]⟩ true 1000000000000
          emptyToolResult)) "I1"
      = some ⟨"expand_task", ⟨some "/p", some "7", false, none⟩, ⟨[]⟩, 0,
          some ⟨"expand-task", "main", "generateText", emptyRequestParameters⟩⟩
    ∧ (1000000000000 : Nat) - 0 > 3600000 := by
  constructor
  · decide
  · decide

/-- C3 amended: the source has no TTL reaper and no delegationTtlMs option:
the stored timestamp is never read, and a Pending Record is removed only by
an agent_llm callback carrying its interaction id or by a failed settlement
of its directive dispatch, so a record whose agent never responds stays in
the registry for the entire run, whatever events occur. -/
theorem c3_no_ttl_reaper_amended (reg : Registry) (iid : String) (evs : List WrapperEvent)
    (hpres : (regGet reg iid).isSome = true)
    (hno : ∀ e ∈ evs, removesId iid e = false) :
    (regGet (evs.foldl stepRegistry reg) iid).isSome = true := by
  induction evs generalizing reg with
  | nil => simpa using hpres
  | cons e rest ih =>
    simp only [List.foldl_cons]
    exact ih (stepRegistry reg e)
      (stepRegistry_preserves reg iid e hpres (hno e (List.mem_cons_self e rest)))
      (fun e2 he2 => hno e2 (List.mem_cons_of_mem e he2))

/-- Witness for C3 amended: a record survives a later unrelated invocation. -/
theorem c3_no_ttl_reaper_amended_witness :
    (regGet ([WrapperEvent.invoke "get_tasks" ⟨some "/p", none, false, none⟩ ⟨[]⟩ true
        1000000000000 emptyToolResult].foldl stepRegistry
      [("I1", ⟨"expand_task", ⟨some "/p", some "7", false, none⟩, ⟨[]⟩, 0, none⟩)])
      "I1").isSome = true := by
  refine c3_no_ttl_reaper_amended
    [("I1", ⟨"expand_task", ⟨some "/p", some "7", false, none⟩, ⟨[]⟩, 0, none⟩)] "I1"
    [WrapperEvent.invoke "get_tasks" ⟨some "/p", none, false, none⟩ ⟨[]⟩ true
      1000000000000 emptyToolResult]
    (by decide) ?_
  intro e he
  simp only [List.mem_singleton] at he
  subst he
  decide

/-- Updating the first match moves find? to the updated element when the
update preserves matching. -/
theorem find?_updateFirstBy (p : α → Bool) (f : α → α)
    (hpf : ∀ a, p a = true → p (f a) = true) :
    ∀ (l : List α) (a : α), l.find? p = some a →
      (updateFirstBy p f l).find? p = some (f a)
  | [], a => by simp
  | x :: xs, a => by
    intro h
    by_cases hx : p x = true
    · rw [List.find?_cons_of_pos _ hx] at h
      have hxa : x = a := by simpa using h
      subst hxa
      simp only [updateFirstBy, hx, if_true]
      exact List.find?_cons_of_pos _ (hpf x hx)
    · have hxf : p x = false := by revert hx; cases p x <;> simp
      rw [List.find?_cons_of_neg _ (by simp [hxf])] at h
      simp only [updateFirstBy, hxf, Bool.false_eq_true, if_false]
      rw [List.find?_cons_of_neg _ (by simp [hxf])]
      exact find?_updateFirstBy p f hpf xs a h

/-- A successful find? yields a successful findIdx?. -/
theorem findIdx?_isSome_of_find? (p : α → Bool) :
    ∀ (l : List α) (a : α), l.find? p = some a → (l.findIdx? p).isSome = true
  | [], a => by simp
  | x :: xs, a => by
    intro h
    by_cases hx : p x = true
    · simp [List.findIdx?_cons, hx]
    · have hxf : p x = false := by revert hx; cases p x <;> simp
      rw [List.find?_cons_of_neg _ (by simp [hxf])] at h
      have := findIdx?_isSome_of_find? p xs a h
      simp only [List.findIdx?_cons, hxf, Bool.false_eq_true, if_false]
      simpa using this

/-- Ids assigned by the modelled parser are sequential from the start id. -/
theorem parseSubtasksFromText_ids (raw : List Subtask) (nid : Nat) :
    (parseSubtasksFromText raw nid).map (fun st => st.id)
      = (List.range raw.length).map (fun j => nid + j) := by
  have h1 : (parseSubtasksFromText raw nid).map (fun st => st.id)
      = raw.enum.map (fun pr => nid + pr.1) := by
    simp [parseSubtasksFromText, List.map_map, Function.comp]
  rw [h1, ← List.enum_map_fst raw, List.map_map]
  rfl

/-- C6 counterexample: on a parent with two existing subtasks (ids 1, 2) and
the directive hints nextSubtaskId = 3, numSubtasksForAgent = 3, the bare-array
payload whose subtasks carry ids 1, 2, 3 is appended verbatim: the stored ids
become 1, 2, 1, 2, 3 and not 1, 2, 3, 4, 5. -/
theorem c6_expand_numbering_counterexample :
    ((saveExpandedTaskData
        (.arr [⟨1, "n1", "", "", "pending", "", []⟩, ⟨2, "n2", "", "", "pending", "", []⟩,
          ⟨3, "n3", "", "", "pending", "", []⟩]) 7 3 3
        [⟨7, "t7", "", "", "pending", "", "medium", [],
          [⟨1, "s1", "", "", "pending", "", []⟩, ⟨2, "s2", "", "", "done", "", []⟩]⟩]).1.map
        (fun t => t.subtasks.map (fun st => st.id))
      = [[1, 2, 1, 2, 3]])
    ∧ ([[1, 2, 1, 2, 3]] : List (List Nat)) ≠ [[1, 2, 3, 4, 5]] := by
  constructor
  · decide
  · decide

/-- C6 amended: the expand saver appends the agent subtasks after the
pre-existing ones for every accepted payload shape, but only the JSON-string
shape is renumbered (by the spec-modelled parser) to nextSubtaskId and
upwards; the bare-array and subtasks-object shapes are appended with the
agent-supplied ids unchanged. -/
theorem c6_expand_append_amended (raw subs : List Subtask) (pid nid num : Nat)
    (tasks : List TmTask) (parent : TmTask)
    (hfind : tasks.find? (fun t => t.id == pid) = some parent) :
    ((saveExpandedTaskData (.str raw) pid nid num tasks).1.find? (fun t => t.id == pid)
      = some { parent with subtasks := parent.subtasks ++ parseSubtasksFromText raw nid })
    ∧ ((parseSubtasksFromText raw nid).map (fun st => st.id)
      = (List.range raw.length).map (fun j => nid + j))
    ∧ ((saveExpandedTaskData (.arr subs) pid nid num tasks).1.find? (fun t => t.id == pid)
      = some { parent with subtasks := parent.subtasks ++ subs })
    ∧ ((saveExpandedTaskData (.objWithSubtasks subs) pid nid num tasks).1.find?
        (fun t => t.id == pid)
      = some { parent with subtasks := parent.subtasks ++ subs }) := by
  have hidx := findIdx?_isSome_of_find? _ tasks parent hfind
  have hpf : ∀ t : TmTask, (t.id == pid) = true →
      ∀ ss : List Subtask, (({ t with subtasks := ss } : TmTask).id == pid) = true :=
    fun t ht ss => ht
  cases hI : tasks.findIdx? (fun t => t.id == pid) with
  | none => rw [hI] at hidx; simp at hidx
  | some i =>
    refine ⟨?_, parseSubtasksFromText_ids raw nid, ?_, ?_⟩ <;>
      simp only [saveExpandedTaskData, hI] <;>
      exact find?_updateFirstBy _ _ (fun a ha => hpf a ha _) tasks parent hfind

/-- Witness for C6 amended at the spec scenario (two existing subtasks, three
more requested, nextSubtaskId = 3). -/
theorem c6_expand_append_amended_witness :
    ((saveExpandedTaskData
        (.str [⟨1, "n1", "", "", "pending", "", []⟩, ⟨2, "n2", "", "", "pending", "", []⟩,
          ⟨3, "n3", "", "", "pending", "", []⟩]) 7 3 3
        [⟨7, "t7", "", "", "pending", "", "medium", [],
          [⟨1, "s1", "", "", "pending", "", []⟩, ⟨2, "s2", "", "", "done", "", []⟩]⟩]).1.find?
        (fun t => t.id == 7)
      = some ⟨7, "t7", "", "", "pending", "", "medium", [],
          [⟨1, "s1", "", "", "pending", "", []⟩, ⟨2, "s2", "", "", "done", "", []⟩,
            ⟨3, "n1", "", "", "pending", "", []⟩, ⟨4, "n2", "", "", "pending", "", []⟩,
            ⟨5, "n3", "", "", "pending", "", []⟩]⟩) := by
  have h := c6_expand_append_amended
    [⟨1, "n1", "", "", "pending", "", []⟩, ⟨2, "n2", "", "", "pending", "", []⟩,
      ⟨3, "n3", "", "", "pending", "", []⟩]
    [] 7 3 3
    [⟨7, "t7", "", "", "pending", "", "medium", [],
      [⟨1, "s1", "", "", "pending", "", []⟩, ⟨2, "s2", "", "", "done", "", []⟩]⟩]
    ⟨7, "t7", "", "", "pending", "", "medium", [],
      [⟨1, "s1", "", "", "pending", "", []⟩, ⟨2, "s2", "", "", "done", "", []⟩]⟩
    (by decide)
  rw [h.1]
  decide

/-- Appending a non-matching element does not change find?. -/
theorem find?_append_single_none (p : Subtask → Bool) (a : Subtask) (hpa : p a = false) :
    ∀ l : List Subtask, (l ++ [a]).find? p = l.find? p
  | [] => by simp [List.find?, hpa]
  | x :: xs => by
    by_cases hx : p x = true
    · simp [List.find?_cons_of_pos _ hx, hx]
    · have hxf : p x = false := by revert hx; cases p x <;> simp
      simp only [List.cons_append]
      rw [List.find?_cons_of_neg _ (by simp [hxf]), List.find?_cons_of_neg _ (by simp [hxf])]
      exact find?_append_single_none p a hpa xs

/-- Appending a matching element to a list with no match finds it. -/
theorem find?_append_single_found (p : Subtask → Bool) (a : Subtask) (hpa : p a = true) :
    ∀ l : List Subtask, l.find? p = none → (l ++ [a]).find? p = some a
  | [] => by intro _; simp [List.find?, hpa]
  | x :: xs => by
    intro h
    by_cases hx : p x = true
    · rw [List.find?_cons_of_pos _ hx] at h; simp at h
    · have hxf : p x = false := by revert hx; cases p x <;> simp
      rw [List.find?_cons_of_neg _ (by simp [hxf])] at h
      simp only [List.cons_append]
      rw [List.find?_cons_of_neg _ (by simp [hxf])]
      exact find?_append_single_found p a hpa xs h

/-- Filtering out one id leaves lookups of other ids unchanged. -/
theorem find?_filter_other (cid z : Nat) (hz : z ≠ cid) :
    ∀ acc : List Subtask,
      (acc.filter (fun st => st.id != cid)).find? (fun st => st.id == z)
        = acc.find? (fun st => st.id == z)
  | [] => rfl
  | x :: xs => by
    by_cases h1 : x.id = cid
    · have hxz : (x.id == z) = false := by simp [h1]; exact fun hc => hz hc.symm
      simp only [List.filter_cons, h1]
      rw [List.find?_cons_of_neg _ (by simp [hxz])]
      simpa [h1] using find?_filter_other cid z hz xs
    · simp only [List.filter_cons, show (x.id != cid) = true by simp [h1], if_true]
      by_cases h2 : (x.id == z) = true
      · rw [@List.find?_cons_of_pos _ (fun st => st.id == z) x _ h2,
          @List.find?_cons_of_pos _ (fun st => st.id == z) x _ h2]
      · have h2f : (x.id == z) = false := by revert h2; cases (x.id == z) <;> simp
        rw [List.find?_cons_of_neg _ (by simp [h2f]), List.find?_cons_of_neg _ (by simp [h2f])]
        exact find?_filter_other cid z hz xs

/-- Filtering out an id removes every match for it. -/
theorem find?_filter_self (cid : Nat) :
    ∀ acc : List Subtask,
      (acc.filter (fun st => st.id != cid)).find? (fun st => st.id == cid) = none
  | [] => rfl
  | x :: xs => by
    by_cases h1 : x.id = cid
    · simp only [List.filter_cons, h1]
      simp only [bne_self_eq_false, Bool.false_eq_true, if_false]
      exact find?_filter_self cid xs
    · simp only [List.filter_cons, show (x.id != cid) = true by simp [h1], if_true]
      rw [List.find?_cons_of_neg _ (by simp [h1])]
      exact find?_filter_self cid xs

/-- The restore step leaves lookups of other ids unchanged. -/
theorem find?_restoreStep_other (acc : List Subtask) (comp : Subtask) (z : Nat)
    (hz : z ≠ comp.id) :
    (restoreStep acc comp).find? (fun st => st.id == z)
      = acc.find? (fun st => st.id == z) := by
  unfold restoreStep
  by_cases h : (acc.find? (fun st => st.id == comp.id) == some comp) = true
  · simp [h]
  · have hf : (acc.find? (fun st => st.id == comp.id) == some comp) = false := by
      revert h; cases (acc.find? (fun st => st.id == comp.id) == some comp) <;> simp
    simp only [hf, Bool.false_eq_true, if_false]
    rw [find?_append_single_none _ _ (by simp; exact fun hc => hz hc.symm),
      find?_filter_other comp.id z hz]

/-- After the restore step the processed subtask is the lookup result for its
own id. -/
theorem find?_restoreStep_self (acc : List Subtask) (comp : Subtask) :
    (restoreStep acc comp).find? (fun st => st.id == comp.id) = some comp := by
  unfold restoreStep
  by_cases h : (acc.find? (fun st => st.id == comp.id) == some comp) = true
  · simp only [h, if_true]
    exact eq_of_beq h
  · have hf : (acc.find? (fun st => st.id == comp.id) == some comp) = false := by
      revert h; cases (acc.find? (fun st => st.id == comp.id) == some comp) <;> simp
    simp only [hf, Bool.false_eq_true, if_false]
    exact find?_append_single_found _ comp (by simp) _ (find?_filter_self comp.id acc)

/-- A lookup result survives the remaining restore steps when their ids all
differ. -/
theorem restore_fold_keeps (z : Nat) (c : Subtask) :
    ∀ (todo : List Subtask) (acc : List Subtask),
      acc.find? (fun st => st.id == z) = some c →
      (∀ d ∈ todo, d.id ≠ z) →
      (todo.foldl restoreStep acc).find? (fun st => st.id == z) = some c
  | [], acc => fun h _ => h
  | x :: xs, acc => by
    intro h hno
    simp only [List.foldl_cons]
    refine restore_fold_keeps z c xs (restoreStep acc x) ?_
      (fun d hd => hno d (List.mem_cons_of_mem x hd))
    rw [find?_restoreStep_other acc x z
      (fun hEq => hno x (List.mem_cons_self x xs) hEq.symm)]
    exact h

/-- Every member of a duplicate-free completed list is the lookup result for
its id after the full restore fold. -/
theorem restore_fold_find? (c : Subtask) :
    ∀ (todo : List Subtask) (acc : List Subtask),
      c ∈ todo → (todo.map (fun st => st.id)).Nodup →
      (todo.foldl restoreStep acc).find? (fun st => st.id == c.id) = some c
  | [], acc => by simp
  | x :: xs, acc => by
    intro hmem hnodup
    have hn : x.id ∉ xs.map (fun st => st.id) ∧ (xs.map (fun st => st.id)).Nodup := by
      rw [List.map_cons, List.nodup_cons] at hnodup
      exact hnodup
    simp only [List.foldl_cons]
    rcases List.mem_cons.mp hmem with h1 | h1
    · refine restore_fold_keeps c.id c xs (restoreStep acc x) ?_ ?_
      · rw [h1]
        exact find?_restoreStep_self acc x
      · intro d hd hEq
        apply hn.1
        rw [h1] at hEq
        rw [← hEq]
        exact List.mem_map_of_mem (fun st => st.id) hd
    · exact restore_fold_find? c xs (restoreStep acc x) h1 hn.2

/-- A lookup hit for an unseen id is kept by the deduplication pass. -/
theorem dedupeGo_mem_of_find? (c : Subtask) :
    ∀ (l : List Subtask) (seen : List Nat),
      c.id ∉ seen → l.find? (fun st => st.id == c.id) = some c →
      c ∈ dedupeGo seen l
  | [], seen => by intro _ h; simp at h
  | x :: xs, seen => by
    intro hseen hfind
    by_cases h1 : x.id = c.id
    · rw [List.find?_cons_of_pos _ (by simp [h1])] at hfind
      have hxc : x = c := by simpa using hfind
      subst hxc
      simp only [dedupeGo]
      rw [if_neg (by simpa [h1] using hseen)]
      exact List.mem_cons_self x _
    · rw [List.find?_cons_of_neg _ (by simp [h1])] at hfind
      simp only [dedupeGo]
      by_cases h2 : x.id ∈ seen
      · rw [if_pos h2]
        exact dedupeGo_mem_of_find? c xs seen hseen hfind
      · rw [if_neg h2]
        refine List.mem_cons_of_mem x (dedupeGo_mem_of_find? c xs (x.id :: seen) ?_ hfind)
        intro hc
        rcases List.mem_cons.mp hc with hc1 | hc1
        · exact h1 hc1.symm
        · exact hseen hc1

/-- Completed subtasks with duplicate-free ids survive the full merge of the
original and agent subtask lists. -/
theorem mergeSubtaskLists_preserves_completed (origSubs : List Subtask)
    (agentSubs : Option (List Subtask)) (c : Subtask)
    (hc : c ∈ origSubs) (hcomp : isCompletedStatus c.status = true)
    (hnodup : (origSubs.map (fun st => st.id)).Nodup) :
    c ∈ mergeSubtaskLists origSubs agentSubs := by
  have hlen : origSubs.length > 0 := by
    cases origSubs with
    | nil => simp at hc
    | cons x xs => simp
  have hmemF : c ∈ origSubs.filter (fun st => isCompletedStatus st.status) :=
    List.mem_filter.mpr ⟨hc, hcomp⟩
  have hsub : List.Sublist
      ((origSubs.filter (fun st => isCompletedStatus st.status)).map (fun st => st.id))
      (origSubs.map (fun st => st.id)) :=
    List.Sublist.map (fun st => st.id) (List.filter_sublist origSubs)
  have hnodupF := List.Nodup.sublist hsub hnodup
  have hfind := restore_fold_find? c _ (agentSubs.getD []) hmemF hnodupF
  have hded : c ∈ dedupeById (restoreCompleted
      (origSubs.filter (fun st => isCompletedStatus st.status)) (agentSubs.getD [])) :=
    dedupeGo_mem_of_find? c _ [] (by simp) hfind
  have hsort : c ∈ sortById (dedupeById (restoreCompleted
      (origSubs.filter (fun st => isCompletedStatus st.status)) (agentSubs.getD []))) := by
    unfold sortById
    exact ((List.perm_insertionSort _ _).mem_iff).mpr hded
  simpa [mergeSubtaskLists, hlen, restoreCompleted] using hsort

/-- A completed target leaves the single-task saver without a write. -/
theorem saveUpdated_completed_unchanged (parser : String → Option AgentTaskPayload)
    (out : AgentOutput) (ref : TaskRef) (args : OriginalToolArgs) (ts : String)
    (tasks : List TmTask) (t : TmTask) (subOpt : Option Subtask)
    (hcomp : isCompletedStatus (match subOpt with
      | some st => st.status
      | none => t.status) = true)
    (hfind : findTargetItem tasks ref = some (t, subOpt)) :
    (saveUpdatedTaskFromAgent parser out ref args ts tasks).1 = tasks
    ∧ (saveUpdatedTaskFromAgent parser out ref args ts tasks).2.wasActuallyUpdated = false := by
  cases subOpt with
  | some st =>
    simp only [] at hcomp
    cases out with
    | str s =>
      cases hA : args.append with
      | true => constructor <;> simp [saveUpdatedTaskFromAgent, hfind, hA, hcomp]
      | false =>
        cases hp : parser s with
        | none => constructor <;> simp [saveUpdatedTaskFromAgent, hfind, hA, hp]
        | some pl => constructor <;> simp [saveUpdatedTaskFromAgent, hfind, hA, hp, hcomp]
    | obj pl =>
      cases hA : args.append with
      | true => constructor <;> simp [saveUpdatedTaskFromAgent, hfind, hA, hcomp]
      | false => constructor <;> simp [saveUpdatedTaskFromAgent, hfind, hA, hcomp]
  | none =>
    simp only [] at hcomp
    cases out with
    | str s =>
      cases hA : args.append with
      | true => constructor <;> simp [saveUpdatedTaskFromAgent, hfind, hA, hcomp]
      | false =>
        cases hp : parser s with
        | none => constructor <;> simp [saveUpdatedTaskFromAgent, hfind, hA, hp]
        | some pl => constructor <;> simp [saveUpdatedTaskFromAgent, hfind, hA, hp, hcomp]
    | obj pl =>
      cases hA : args.append with
      | true => constructor <;> simp [saveUpdatedTaskFromAgent, hfind, hA, hcomp]
      | false => constructor <;> simp [saveUpdatedTaskFromAgent, hfind, hA, hcomp]

/-- A completed subtask leaves the subtask saver without a write. -/
theorem saveSubtask_completed_unchanged (out : Option String) (pid sid : Nat)
    (args : OriginalToolArgs) (ts ld : String) (tasks : List TmTask)
    (parent : TmTask) (st : Subtask)
    (hp : tasks.find? (fun t => t.id == pid) = some parent)
    (hs : parent.subtasks.find? (fun s0 => s0.id == sid) = some st)
    (hcomp : isCompletedStatus st.status = true) :
    (saveSubtaskDetailsFromAgent out pid sid args ts ld tasks).1 = tasks
    ∧ (saveSubtaskDetailsFromAgent out pid sid args ts ld tasks).2.wasActuallyUpdated
      = false := by
  cases out with
  | none => exact ⟨rfl, rfl⟩
  | some s =>
    by_cases he : (jsTrim s == "") = true
    · constructor <;> simp [saveSubtaskDetailsFromAgent, he]
    · have hef : (jsTrim s == "") = false := by revert he; cases (jsTrim s == "") <;> simp
      constructor <;> simp [saveSubtaskDetailsFromAgent, hef, hp, hs, hcomp]

/-- A completed task is returned unchanged at its position by the bulk
saver. -/
theorem bulk_completed_unchanged (parser : String → Option (List AgentTaskPayload))
    (out : BulkAgentOutput) (tasks : List TmTask) (i : Nat) (t : TmTask)
    (hget : tasks[i]? = some t) (hcomp : isCompletedStatus t.status = true) :
    (saveMultipleTasksFromAgent parser out tasks).1[i]? = some t := by
  have hmap : ∀ ps : List AgentTaskPayload,
      (tasks.map (fun origTask =>
        match lookupLastPayload ps origTask.id with
        | none => origTask
        | some agentTask =>
          if isCompletedStatus origTask.status then origTask
          else
            mergeTaskPayload origTask agentTask origTask.id
              (mergeSubtaskLists origTask.subtasks agentTask.subtasks)))[i]?
        = some t := by
    intro ps
    rw [List.getElem?_map, hget]
    cases hl : lookupLastPayload ps t.id with
    | none => simp [hl]
    | some agentTask => simp [hl, hcomp]
  cases out with
  | str s =>
    cases hp : parser s with
    | none => simp [saveMultipleTasksFromAgent, hp, hget]
    | some ps =>
      simp only [saveMultipleTasksFromAgent, hp]
      exact hmap ps
  | arr ps =>
    by_cases hall : (ps.all (fun p => p.id.isSome && p.title.isSome)) = true
    · simp only [saveMultipleTasksFromAgent, hall, if_true]
      exact hmap ps
    · have hf : (ps.all (fun p => p.id.isSome && p.title.isSome)) = false := by
        revert hall; cases (ps.all (fun p => p.id.isSome && p.title.isSome)) <;> simp
      simp [saveMultipleTasksFromAgent, hf, hget]
  | other => simp [saveMultipleTasksFromAgent, hget]

/-- C4 counterexample: the research post-processor appends its block to a task
whose status is done, so the stored completed item changes instead of being
skipped; the claimed completed-item protection does not hold for the research
handler. -/
theorem c4_completed_protection_counterexample :
    (handleAgentResearchSaveTo "research findings" (some "q") none (.top 1) "master" "TS"
        [("master", ⟨[⟨1, "t1", "", "OLD", "done", "", "high", [], []⟩]⟩)]).1
      = [("master", ⟨[⟨1, "t1", "",
          "OLD\n\n<info added on TS>\nOriginal Query: q\nresearch findings\n</info added on TS>",
          "done", "", "high", [], []⟩]⟩)]
    ∧ (handleAgentResearchSaveTo "research findings" (some "q") none (.top 1) "master" "TS"
        [("master", ⟨[⟨1, "t1", "", "OLD", "done", "", "high", [], []⟩]⟩)]).1
      ≠ [("master", ⟨[⟨1, "t1", "", "OLD", "done", "", "high", [], []⟩]⟩)]
    ∧ (handleAgentResearchSaveTo "research findings" (some "q") none (.top 1) "master" "TS"
        [("master", ⟨[⟨1, "t1", "", "OLD", "done", "", "high", [], []⟩]⟩)]).2 = true := by
  refine ⟨?_, ?_, ?_⟩ <;> decide

/-- C4 amended: the completed-item protection holds for the update-task saver
(a completed target is never written), the update-subtask saver (a completed
subtask is never written), and the bulk saver (a completed task keeps its
stored value, and completed subtasks with duplicate-free ids survive the
shared subtask merge verbatim); the parse-prd, expand and research
post-processors perform no such check. -/
theorem c4_completed_protection_amended :
    (∀ (parser : String → Option AgentTaskPayload) (out : AgentOutput) (ref : TaskRef)
      (args : OriginalToolArgs) (ts : String) (tasks : List TmTask) (t : TmTask)
      (subOpt : Option Subtask),
      isCompletedStatus (match subOpt with
        | some st => st.status
        | none => t.status) = true →
      findTargetItem tasks ref = some (t, subOpt) →
      (saveUpdatedTaskFromAgent parser out ref args ts tasks).1 = tasks
      ∧ (saveUpdatedTaskFromAgent parser out ref args ts tasks).2.wasActuallyUpdated = false)
    ∧ (∀ (out : Option String) (pid sid : Nat) (args : OriginalToolArgs) (ts ld : String)
      (tasks : List TmTask) (parent : TmTask) (st : Subtask),
      tasks.find? (fun t => t.id == pid) = some parent →
      parent.subtasks.find? (fun s0 => s0.id == sid) = some st →
      isCompletedStatus st.status = true →
      (saveSubtaskDetailsFromAgent out pid sid args ts ld tasks).1 = tasks
      ∧ (saveSubtaskDetailsFromAgent out pid sid args ts ld tasks).2.wasActuallyUpdated
        = false)
    ∧ (∀ (parser : String → Option (List AgentTaskPayload)) (out : BulkAgentOutput)
      (tasks : List TmTask) (i : Nat) (t : TmTask),
      tasks[i]? = some t → isCompletedStatus t.status = true →
      (saveMultipleTasksFromAgent parser out tasks).1[i]? = some t)
    ∧ (∀ (origSubs : List Subtask) (agentSubs : Option (List Subtask)) (c : Subtask),
      c ∈ origSubs → isCompletedStatus c.status = true →
      (origSubs.map (fun st => st.id)).Nodup →
      c ∈ mergeSubtaskLists origSubs agentSubs) :=
  ⟨fun parser out ref args ts tasks t subOpt hcomp hfind =>
      saveUpdated_completed_unchanged parser out ref args ts tasks t subOpt hcomp hfind,
    fun out pid sid args ts ld tasks parent st hp hs hcomp =>
      saveSubtask_completed_unchanged out pid sid args ts ld tasks parent st hp hs hcomp,
    fun parser out tasks i t hget hcomp =>
      bulk_completed_unchanged parser out tasks i t hget hcomp,
    fun origSubs agentSubs c hc hcomp hnodup =>
      mergeSubtaskLists_preserves_completed origSubs agentSubs c hc hcomp hnodup⟩

/-- Witness for C4 amended at concrete completed items for all four parts. -/
theorem c4_completed_protection_amended_witness :
    ((saveUpdatedTaskFromAgent (fun _ => none) (.obj emptyAgentTaskPayload) (.top 1)
        ⟨some "/p", some "1", false, none⟩ "TS"
        [⟨1, "t1", "", "OLD", "done", "", "high", [], []⟩]).1
      = [⟨1, "t1", "", "OLD", "done", "", "high", [], []⟩])
    ∧ ((saveSubtaskDetailsFromAgent (some "new info") 1 2
        ⟨some "/p", some "1.2", false, none⟩ "TS" "LD"
        [⟨1, "t1", "", "", "pending", "", "high", [],
          [⟨2, "s2", "", "OLD", "completed", "", []⟩]⟩]).1
      = [⟨1, "t1", "", "", "pending", "", "high", [],
          [⟨2, "s2", "", "OLD", "completed", "", []⟩]⟩])
    ∧ ((saveMultipleTasksFromAgent (fun _ => none)
        (.arr [{ emptyAgentTaskPayload with
          id := some 1
          title := some "changed" }])
        [⟨1, "t1", "", "OLD", "done", "", "high", [], []⟩]).1[0]?
      = some ⟨1, "t1", "", "OLD", "done", "", "high", [], []⟩)
    ∧ (⟨2, "s2", "", "OLD", "done", "", []⟩ : Subtask) ∈ mergeSubtaskLists
        [⟨1, "s1", "", "", "pending", "", []⟩, ⟨2, "s2", "", "OLD", "done", "", []⟩]
        (some [⟨2, "s2", "", "WRECKED", "pending", "", []⟩]) := by
  refine ⟨?_, ?_, ?_, ?_⟩
  · exact (c4_completed_protection_amended.1 (fun _ => none) (.obj emptyAgentTaskPayload)
      (.top 1) ⟨some "/p", some "1", false, none⟩ "TS"
      [⟨1, "t1", "", "OLD", "done", "", "high", [], []⟩]
      ⟨1, "t1", "", "OLD", "done", "", "high", [], []⟩ none (by decide) (by decide)).1
  · exact (c4_completed_protection_amended.2.1 (some "new info") 1 2
      ⟨some "/p", some "1.2", false, none⟩ "TS" "LD"
      [⟨1, "t1", "", "", "pending", "", "high", [],
        [⟨2, "s2", "", "OLD", "completed", "", []⟩]⟩]
      ⟨1, "t1", "", "", "pending", "", "high", [],
        [⟨2, "s2", "", "OLD", "completed", "", []⟩]⟩
      ⟨2, "s2", "", "OLD", "completed", "", []⟩ (by decide) (by decide) (by decide)).1
  · exact c4_completed_protection_amended.2.2.1 (fun _ => none)
      (.arr [{ emptyAgentTaskPayload with
        id := some 1
        title := some "changed" }])
      [⟨1, "t1", "", "OLD", "done", "", "high", [], []⟩] 0
      ⟨1, "t1", "", "OLD", "done", "", "high", [], []⟩ (by decide) (by decide)
  · exact c4_completed_protection_amended.2.2.2
      [⟨1, "s1", "", "", "pending", "", []⟩, ⟨2, "s2", "", "OLD", "done", "", []⟩]
      (some [⟨2, "s2", "", "WRECKED", "pending", "", []⟩])
      ⟨2, "s2", "", "OLD", "done", "", []⟩ (by decide) (by decide) (by decide)
